/-
Verification of the scanalyzer parser plugin framework.

This file gives a shallow embedding, in Lean 4, of the parts of the
`backend/app/parsers` package that the specification's testable properties
talk about:

* the Prowler v3 incremental (event-driven) streaming parser
  (`app/parsers/prowler/prowler_v3_parser.py`),
* the parser registry (`app/parsers/registry.py`),
* the parser factory and format detector (`app/parsers/factory.py`),
* the pattern-extraction utilities (`app/parsers/document/patterns.py`),
* the Bandit parser (`app/parsers/bandit/bandit_parser.py`),
* the `can_parse` estimators of the other registered parsers.

Modelling conventions, used consistently below:

* Python byte strings are `List Nat` (each entry a byte value).
* Python's float confidence scores are exact decimals in the source
  (0.1, 0.2, ..., 0.95, 1.0); they are represented as integers in
  hundredths (`10`, `20`, ..., `95`, `100`), which is exact, so every
  comparison made by the source coincides with the integer comparison.
  Where a claim speaks of the interval [0,1] the theorem relates the
  hundredths value to the rational `value / 100`.
* JSON values (and the Python values produced from them by `json.loads`
  and by `ijson` scalar events) are the inductive `JValue`; JSON `null`
  and Python `None` coincide, exactly as they do in the source.
* fallible Python code (code that can raise) is modelled with `Option` /
  explicit error outcomes; an exception caught by a `try/except` block in
  the source becomes the corresponding `none`/error branch here.
-/
import Mathlib

namespace Scanalyzer

/-! ## Small Python-string helpers

The source manipulates `str` values with `.lower()`, `.upper()`, `.strip()`,
`in` (substring test), `.endswith`, and `"…".split(".")[-1]`.  These are
modelled on `String.data` (`List Char`) so that they compute by kernel
reduction.  Python's `.lower()`/`.upper()` agree with the ASCII case maps
on all strings appearing in the source and in the claims. -/

def pyLower (s : String) : String := String.mk (s.data.map Char.toLower)

def pyUpper (s : String) : String := String.mk (s.data.map Char.toUpper)

/-- Python's substring test `pat in hay` (on `List Char`). -/
def containsSub (hay pat : List Char) : Bool :=
  match hay with
  | [] => pat.isPrefixOf []
  | _ :: t => pat.isPrefixOf hay || containsSub t pat

/-- Python's `pat in hay` on `String`. -/
def pyContains (hay pat : String) : Bool := containsSub hay.data pat.data

/-- Python's `hay.endswith (suf)`. -/
def pyEndsWith (hay suf : String) : Bool := suf.data.isSuffixOf hay.data

/-- Python's `hay.startswith (pat)` on byte strings. -/
def bytesStartWith (hay pat : List Nat) : Bool := pat.isPrefixOf hay

/-- Python's whitespace class `\s` (also the characters stripped by
`str.strip()`): space, tab, newline, carriage return, vertical tab,
form feed. -/
def isPySpace (c : Char) : Bool :=
  c == ' ' || c == '\t' || c == '\n' || c == '\r' ||
  c == Char.ofNat 11 || c == Char.ofNat 12

/-- Python's `s.strip()`. -/
def pyStrip (s : String) : String :=
  String.mk (((s.data.dropWhile isPySpace).reverse.dropWhile isPySpace).reverse)

/-- `s.split(".")[-1]`: the text after the last dot (the whole string when
there is no dot; empty when the string ends in a dot — exactly Python's
behaviour for `split(".")`). -/
def lastComponent (s : String) : String :=
  String.mk (s.data.foldl (fun acc c => if c == '.' then [] else acc ++ [c]) [])

def isAsciiDigit (c : Char) : Bool := '0' ≤ c && c ≤ '9'

def isAsciiAlnum (c : Char) : Bool :=
  isAsciiDigit c || ('a' ≤ c && c ≤ 'z') || ('A' ≤ c && c ≤ 'Z')

/-- Numeric value of a digit list (most significant first). -/
def natOfDigits (ds : List Char) : Nat :=
  ds.foldl (fun n c => 10 * n + (c.toNat - '0'.toNat)) 0

/-- Python's `int(s)` on a string: optional surrounding whitespace, an
optional sign, then one or more digits (`int()` raises otherwise, which is
`none` here). -/
def pyParseInt (s : String) : Option Int :=
  let t := (s.data.dropWhile isPySpace).reverse.dropWhile isPySpace |>.reverse
  match t with
  | [] => none
  | c :: rest =>
    let (neg, ds) :=
      if c == '-' then (true, rest)
      else if c == '+' then (false, rest)
      else (false, c :: rest)
    if ds.isEmpty || !(ds.all isAsciiDigit) then none
    else some (if neg then -(natOfDigits ds : Int) else (natOfDigits ds : Int))

/-! ## JSON / Python values -/

/-- JSON values, and equally the Python values that `json.loads` / `ijson`
produce from them.  `null` doubles as Python `None`, as in the source.
Numbers are exact rationals: every decimal literal of JSON is represented
exactly (the source's float/int distinction is recovered through the
denominator where the source tests `isinstance(…, int)`). -/
inductive JValue where
  | null : JValue
  | bool (b : Bool) : JValue
  | num (q : ℚ) : JValue
  | str (s : String) : JValue
  | arr (xs : List JValue) : JValue
  | obj (kvs : List (String × JValue)) : JValue

/-- Python truthiness of a value (`if v:`). -/
def jTruthy : JValue → Bool
  | .null => false
  | .bool b => b
  | .num q => !(q == 0)
  | .str s => !(s == "")
  | .arr xs => !xs.isEmpty
  | .obj kvs => !kvs.isEmpty

/-- `v is None` (JSON null and Python `None` coincide here). -/
def jIsNull : JValue → Bool
  | .null => true
  | _ => false

/-- Python dict lookup `d[k]` / `d.get(k)` on an ordered association list:
first binding wins (bindings are kept unique by `dictInsert`). -/
def dictLookup (k : String) (d : List (String × JValue)) : Option JValue :=
  List.lookup k d

/-- Python dict assignment `d[k] = v`: replace in place when the key is
present (CPython keeps the original position), else append. -/
def dictInsert (k : String) (v : JValue) (d : List (String × JValue)) :
    List (String × JValue) :=
  if d.any (fun kv => kv.1 == k) then
    d.map (fun kv => if kv.1 == k then (k, v) else kv)
  else d ++ [(k, v)]

/-- `d.get(k)` with Python's default `None`. -/
def jGet (d : List (String × JValue)) (k : String) : JValue :=
  (dictLookup k d).getD .null

/-- `d.get(k, dflt)`: the default applies only when the key is absent; a
stored JSON `null` is returned as-is (it is the stored Python `None`). -/
def jGetD (d : List (String × JValue)) (k : String) (dflt : JValue) : JValue :=
  (dictLookup k d).getD dflt

/-! ## The normalized finding record (`app/models/finding.py`) -/

/-- `SeverityLevel`: the four canonical levels. -/
inductive SeverityLevel where
  | CRITICAL | HIGH | MEDIUM | LOW
deriving DecidableEq, Repr

/-- The normalized `Finding` record, restricted to the fields the parsers
under study assign.  Fields the source may fill with arbitrary Python
values coming from the input JSON (`title`, `description`, resource
identifiers) are `JValue`s, exactly as the SQLAlchemy model accepts any
value at construction time. -/
structure Finding where
  title : JValue
  description : JValue
  severity : SeverityLevel
  tool_source : String
  tool_metadata : List (String × JValue)
  category : Option String
  resource_name : Option JValue := none
  resource_type : Option JValue := none
  location : Option JValue := none
  line_number : Option Int := none

/-! ## Pattern utilities (`app/parsers/document/patterns.py`) -/

/-- Leftmost-match regex search: try the compiled matcher at every start
position, left to right (`re.search`). -/
def regexSearch {β : Type} (m : List Char → Option β) : List Char → Option β
  | [] => m []
  | c :: cs =>
    match m (c :: cs) with
    | some b => some b
    | none => regexSearch m cs

/-- Case-insensitive literal match (all the relevant patterns carry
`re.IGNORECASE`); on success returns the rest of the input. -/
def matchLitCI (pat : List Char) (cs : List Char) : Option (List Char) :=
  match pat, cs with
  | [], rest => some rest
  | _ :: _, [] => none
  | p :: ps, c :: rest =>
    if p.toLower == c.toLower then matchLitCI ps rest else none

/-- `\s*`: greedily skip whitespace. -/
def skipSpaces (cs : List Char) : List Char := cs.dropWhile isPySpace

/-- The matcher compiled from `cvss\s*[:]?\s*(\d+\.?\d*)` at one position.
The captured number `d₁…dₘ.f₁…fₙ` is returned scaled as the pair
`(d₁…dₘf₁…fₙ, 10^n)`, so that the source's `float(...) >= 9.0` test is the
exact test `num ≥ 9 * den` (exact for every decimal literal). -/
def matchCvssAt (cs : List Char) : Option (Nat × Nat) :=
  match matchLitCI "cvss".data cs with
  | none => none
  | some r1 =>
    let r2 := skipSpaces r1
    let r3 := match r2 with
      | c :: rest => if c == ':' then rest else r2
      | [] => r2
    let r4 := skipSpaces r3
    let intDs := r4.takeWhile isAsciiDigit
    if intDs.isEmpty then none
    else
      let r5 := r4.drop intDs.length
      let fracDs := match r5 with
        | c :: rest => if c == '.' then rest.takeWhile isAsciiDigit else []
        | [] => []
      some (natOfDigits (intDs ++ fracDs), 10 ^ fracDs.length)

/-- The matcher compiled from `p(\d)|priority\s*(\d)` at one position
(alternatives tried in order, as `re` does); returns
`int(match.group(1) or match.group(2))`. -/
def matchPriorityAt (cs : List Char) : Option Nat :=
  match matchLitCI "p".data cs with
  | some (c :: _) =>
    if isAsciiDigit c then some (c.toNat - '0'.toNat)
    else
      match matchLitCI "priority".data cs with
      | some r1 =>
        match skipSpaces r1 with
        | d :: _ => if isAsciiDigit d then some (d.toNat - '0'.toNat) else none
        | [] => none
      | none => none
  | _ =>
    match matchLitCI "priority".data cs with
    | some r1 =>
      match skipSpaces r1 with
      | d :: _ => if isAsciiDigit d then some (d.toNat - '0'.toNat) else none
      | [] => none
    | none => none

/-- `SEVERITY_KEYWORDS`, in the source's (insertion) order. -/
def SEVERITY_KEYWORDS : List (SeverityLevel × List String) :=
  [(.CRITICAL, ["critical", "severe", "emergency", "urgent", "p0", "priority 0",
                "catastrophic", "extreme", "highest"]),
   (.HIGH, ["high", "important", "significant", "major", "p1", "priority 1",
            "serious", "elevated"]),
   (.MEDIUM, ["medium", "moderate", "intermediate", "p2", "priority 2",
              "standard", "normal"]),
   (.LOW, ["low", "minor", "informational", "info", "p3", "p4",
           "priority 3", "priority 4", "minimal", "trivial"])]

/-- The keyword loop of `SeverityMapper.map_severity`. -/
def keywordLevel (t : String) : Option SeverityLevel :=
  (SEVERITY_KEYWORDS.find? (fun lk => lk.2.any (fun kw => pyContains t kw))).map
    (fun lk => lk.1)

/-- `SeverityMapper.map_severity`: CVSS score first, then priority level,
then keyword table, default MEDIUM. -/
def mapSeverity (severity_text : String) : SeverityLevel :=
  let t := pyStrip (pyLower severity_text)
  match regexSearch matchCvssAt t.data with
  | some (n, d) =>
    if n ≥ 9 * d then .CRITICAL
    else if n ≥ 7 * d then .HIGH
    else if n ≥ 4 * d then .MEDIUM
    else .LOW
  | none =>
    match regexSearch matchPriorityAt t.data with
    | some p =>
      if p == 0 then .CRITICAL
      else if p == 1 then .HIGH
      else if p == 2 then .MEDIUM
      else .LOW
    | none =>
      match keywordLevel t with
      | some lv => lv
      | none => .MEDIUM

/-! ### Confidence scorer (`ConfidenceScorer.calculate_confidence`) -/

/-- The extraction dictionary that `PatternMatcher` hands to
`ConfidenceScorer.calculate_confidence`, restricted to the keys the scorer
reads.  `none` is an absent key; Python truthiness of the stored values is
`strTruthy`/`listTruthy` below. -/
structure PatternFinding where
  title : Option String := none
  severity : Option String := none
  description : Option String := none
  files : Option (List String) := none
  line_numbers : Option (List Int) := none
  references : Option (List String) := none
  vulnerability_type : Option String := none

/-- `finding.get(k)` truthiness for a string-valued key. -/
def strTruthy : Option String → Bool
  | none => false
  | some s => !(s == "")

/-- `finding.get(k)` truthiness for a list-valued key. -/
def listTruthy {α : Type} : Option (List α) → Bool
  | none => false
  | some l => !l.isEmpty

/-- The accumulated `score` of `calculate_confidence`, in hundredths
(0.2 → 20 and so on), written as the sum the sequential accumulation in the
source computes. -/
def scoreH (f : PatternFinding) : Int :=
  (if strTruthy f.title then 20 else 0) +
  (if strTruthy f.severity then 20 else 0) +
  (if strTruthy f.description then
     20 + (if ((f.description.getD "").length : Int) > 100 then 10 else 0)
   else 0) +
  (if listTruthy f.files || listTruthy f.line_numbers then 15 else 0) +
  (if listTruthy f.references then 10 else 0) +
  (if strTruthy f.vulnerability_type then 10 else 0)

/-- The accumulated `max_score`, in hundredths.  Note the source adds the
0.1 description-length bonus weight to `max_score` only when a description
is present. -/
def maxScoreH (f : PatternFinding) : Int :=
  20 + 20 + (if strTruthy f.description then 10 else 0) + 20 + 15 + 10 + 10

/-- `ConfidenceScorer.calculate_confidence`: `score / max_score` (0.0 when
`max_score` is 0, which never happens). -/
def calculateConfidence (f : PatternFinding) : ℚ :=
  if 0 < maxScoreH f then (scoreH f : ℚ) / (maxScoreH f : ℚ) else 0

/-! ## Byte decoding

Models of `bytes.decode(encoding)` (strict: `none` on error) and
`bytes.decode('utf-8', errors='ignore')` (total: invalid bytes are
skipped).  The UTF-8 decoder enforces the shortest-form and surrogate
restrictions exactly as CPython does. -/

/-- One UTF-8 step: decode the first scalar value, returning it and the
rest, or `none` when the head byte sequence is invalid. -/
def utf8Step : List Nat → Option (Char × List Nat)
  | [] => none
  | b :: rest =>
    if b < 0x80 then some (Char.ofNat b, rest)
    else if 0xC2 ≤ b && b ≤ 0xDF then
      match rest with
      | c1 :: r =>
        if 0x80 ≤ c1 && c1 ≤ 0xBF then
          some (Char.ofNat ((b - 0xC0) * 0x40 + (c1 - 0x80)), r)
        else none
      | [] => none
    else if 0xE0 ≤ b && b ≤ 0xEF then
      match rest with
      | c1 :: c2 :: r =>
        let lo1 := if b == 0xE0 then 0xA0 else 0x80
        let hi1 := if b == 0xED then 0x9F else 0xBF
        if lo1 ≤ c1 && c1 ≤ hi1 && 0x80 ≤ c2 && c2 ≤ 0xBF then
          some (Char.ofNat ((b - 0xE0) * 0x1000 + (c1 - 0x80) * 0x40 + (c2 - 0x80)), r)
        else none
      | _ => none
    else if 0xF0 ≤ b && b ≤ 0xF4 then
      match rest with
      | c1 :: c2 :: c3 :: r =>
        let lo1 := if b == 0xF0 then 0x90 else 0x80
        let hi1 := if b == 0xF4 then 0x8F else 0xBF
        if lo1 ≤ c1 && c1 ≤ hi1 && 0x80 ≤ c2 && c2 ≤ 0xBF && 0x80 ≤ c3 && c3 ≤ 0xBF then
          some (Char.ofNat ((b - 0xF0) * 0x40000 + (c1 - 0x80) * 0x1000 +
            (c2 - 0x80) * 0x40 + (c3 - 0x80)), r)
        else none
      | _ => none
    else none

/-- Fuelled strict UTF-8 decode (`bytes.decode('utf-8')`). -/
def utf8DecodeStrictAux : Nat → List Nat → Option (List Char)
  | _, [] => some []
  | 0, _ :: _ => none
  | fuel + 1, bs =>
    match utf8Step bs with
    | some (c, rest) => (utf8DecodeStrictAux fuel rest).map (fun cs => c :: cs)
    | none => none

def utf8DecodeStrict (bs : List Nat) : Option (List Char) :=
  utf8DecodeStrictAux bs.length bs

/-- Fuelled UTF-8 decode with `errors='ignore'`: an invalid head byte is
skipped and decoding continues. -/
def utf8DecodeIgnoreAux : Nat → List Nat → List Char
  | _, [] => []
  | 0, _ :: _ => []
  | fuel + 1, b :: bs =>
    match utf8Step (b :: bs) with
    | some (c, rest) => c :: utf8DecodeIgnoreAux fuel rest
    | none => utf8DecodeIgnoreAux fuel bs

def utf8DecodeIgnore (bs : List Nat) : List Char :=
  utf8DecodeIgnoreAux bs.length bs

/-- `bytes.decode('latin-1')`: total, byte-to-codepoint. -/
def latin1Decode (bs : List Nat) : List Char :=
  bs.map (fun b => Char.ofNat (b % 256))

/-- Strict UTF-16 decode with the given endianness (`none` on odd length
or an unpaired surrogate). -/
def utf16Decode (le : Bool) : List Nat → Option (List Char)
  | [] => some []
  | [_] => none
  | b0 :: b1 :: rest =>
    let u := if le then b1 % 256 * 256 + b0 % 256 else b0 % 256 * 256 + b1 % 256
    if 0xD800 ≤ u && u ≤ 0xDBFF then
      match rest with
      | b2 :: b3 :: rest2 =>
        let v := if le then b3 % 256 * 256 + b2 % 256 else b2 % 256 * 256 + b3 % 256
        if 0xDC00 ≤ v && v ≤ 0xDFFF then
          (utf16Decode le rest2).map
            (fun cs => Char.ofNat (0x10000 + (u - 0xD800) * 0x400 + (v - 0xDC00)) :: cs)
        else none
      | _ => none
    else if 0xDC00 ≤ u && u ≤ 0xDFFF then none
    else (utf16Decode le rest).map (fun cs => Char.ofNat u :: cs)

/-- `content.decode(encoding)` for the encodings the detector can choose.
`utf-8-sig` strips the BOM bytes first; latin-1 never fails. -/
def pyDecode (bs : List Nat) (encoding : String) : Option String :=
  if encoding == "utf-8" then (utf8DecodeStrict bs).map String.mk
  else if encoding == "utf-8-sig" then
    (utf8DecodeStrict (if bytesStartWith bs [0xEF, 0xBB, 0xBF] then bs.drop 3 else bs)).map
      String.mk
  else if encoding == "utf-16-le" then (utf16Decode true (bs.drop 2)).map String.mk
  else if encoding == "utf-16-be" then (utf16Decode false (bs.drop 2)).map String.mk
  else some (String.mk (latin1Decode bs))

/-! ## A model of `json.loads`

A fuelled recursive-descent parser for JSON, used by the format detector's
`analyze_json` and by the Bandit parser.  Numbers are parsed exactly into
`ℚ` (optional sign, digits, optional fraction, optional decimal exponent).
Object keys repeat the CPython behaviour for duplicates (last wins) via
`dictInsert`.  `\u` escapes outside the surrogate range are decoded;
surrogate pairs are out of scope for the inputs considered here. -/

def isJsonSpace (c : Char) : Bool :=
  c == ' ' || c == '\t' || c == '\n' || c == '\r'

def hexVal (c : Char) : Option Nat :=
  let n := c.toNat
  if 48 ≤ n && n ≤ 57 then some (n - 48)
  else if 97 ≤ n && n ≤ 102 then some (n - 87)
  else if 65 ≤ n && n ≤ 70 then some (n - 55)
  else none

/-- Parse the body of a JSON string literal (after the opening quote). -/
def jsonParseString : Nat → List Char → Option (List Char × List Char)
  | 0, _ => none
  | _ + 1, [] => none
  | fuel + 1, c :: rest =>
    if c == '"' then some ([], rest)
    else if c == '\\' then
      match rest with
      | [] => none
      | e :: rest2 =>
        let dec : Option (Char × List Char) :=
          if e == '"' then some ('"', rest2)
          else if e == '\\' then some ('\\', rest2)
          else if e == '/' then some ('/', rest2)
          else if e == 'b' then some (Char.ofNat 8, rest2)
          else if e == 'f' then some (Char.ofNat 12, rest2)
          else if e == 'n' then some ('\n', rest2)
          else if e == 'r' then some ('\r', rest2)
          else if e == 't' then some ('\t', rest2)
          else if e == 'u' then
            match rest2 with
            | h1 :: h2 :: h3 :: h4 :: rest3 =>
              match hexVal h1, hexVal h2, hexVal h3, hexVal h4 with
              | some a, some b, some c2, some d =>
                some (Char.ofNat (((a * 16 + b) * 16 + c2) * 16 + d), rest3)
              | _, _, _, _ => none
            | _ => none
          else none
        match dec with
        | some (ch, r) =>
          (jsonParseString fuel r).map (fun p => (ch :: p.1, p.2))
        | none => none
    else if c.toNat < 0x20 then none
    else (jsonParseString fuel rest).map (fun p => (c :: p.1, p.2))

/-- Parse a JSON number starting at the given characters. -/
def jsonParseNumber (cs : List Char) : Option (ℚ × List Char) :=
  let (neg, cs1) := match cs with
    | c :: rest => if c == '-' then (true, rest) else (false, cs)
    | [] => (false, cs)
  let intDs := cs1.takeWhile isAsciiDigit
  if intDs.isEmpty then none
  else
    let cs2 := cs1.drop intDs.length
    let (fracDs, cs3) := match cs2 with
      | c :: rest =>
        if c == '.' then (rest.takeWhile isAsciiDigit, rest.drop (rest.takeWhile isAsciiDigit).length)
        else ([], cs2)
      | [] => ([], cs2)
    if (match cs2 with | c :: _ => c == '.' | [] => false) && fracDs.isEmpty then none
    else
      let (expSign, expDs, cs4) := match cs3 with
        | c :: rest =>
          if c == 'e' || c == 'E' then
            match rest with
            | s :: rest2 =>
              if s == '-' then (true, rest2.takeWhile isAsciiDigit, rest2.drop (rest2.takeWhile isAsciiDigit).length)
              else if s == '+' then (false, rest2.takeWhile isAsciiDigit, rest2.drop (rest2.takeWhile isAsciiDigit).length)
              else (false, rest.takeWhile isAsciiDigit, rest.drop (rest.takeWhile isAsciiDigit).length)
            | [] => (false, [], cs3)
          else (false, [], cs3)
        | [] => (false, [], cs3)
      if (match cs3 with | c :: _ => c == 'e' || c == 'E' | [] => false) && expDs.isEmpty then none
      else
        let mantissa : Int := (natOfDigits (intDs ++ fracDs) : Int)
        let mantissa := if neg then -mantissa else mantissa
        let e10 : Nat := natOfDigits expDs
        let q : ℚ :=
          if expSign then mkRat mantissa (10 ^ (fracDs.length + e10))
          else mkRat (mantissa * (10 ^ e10 : Nat)) (10 ^ fracDs.length)
        some (q, cs4)

mutual

/-- Fuelled JSON value parser. -/
def jsonParseValue : Nat → List Char → Option (JValue × List Char)
  | 0, _ => none
  | fuel + 1, cs =>
    match cs.dropWhile isJsonSpace with
    | [] => none
    | c :: rest =>
      if c == '"' then
        (jsonParseString (fuel + 1) rest).map (fun p => (.str (String.mk p.1), p.2))
      else if c == '{' then
        jsonParseMembers fuel rest []
      else if c == '[' then
        jsonParseElements fuel rest []
      else if c == 't' then
        (matchLitCI "rue".data rest).map (fun r => (.bool true, r))
      else if c == 'f' then
        (matchLitCI "alse".data rest).map (fun r => (.bool false, r))
      else if c == 'n' then
        (matchLitCI "ull".data rest).map (fun r => (.null, r))
      else
        (jsonParseNumber (c :: rest)).map (fun p => (.num p.1, p.2))

/-- Members of an object (after the opening brace); `acc` holds the
bindings parsed so far, combined with `dictInsert` (CPython: duplicate
keys, last wins). -/
def jsonParseMembers : Nat → List Char → List (String × JValue) →
    Option (JValue × List Char)
  | 0, _, _ => none
  | fuel + 1, cs, acc =>
    match cs.dropWhile isJsonSpace with
    | [] => none
    | c :: rest =>
      if c == '}' then
        if acc.isEmpty then some (.obj acc, rest) else none
      else
        match (if acc.isEmpty then some (c :: rest)
               else if c == ',' then some (rest.dropWhile isJsonSpace) else none) with
        | none => none
        | some cs2 =>
          match cs2 with
          | q :: cs3 =>
            if q == '"' then
              match jsonParseString (fuel + 1) cs3 with
              | none => none
              | some (key, cs4) =>
                match cs4.dropWhile isJsonSpace with
                | colon :: cs5 =>
                  if colon == ':' then
                    match jsonParseValue fuel cs5 with
                    | none => none
                    | some (v, cs6) =>
                      let acc2 := dictInsert (String.mk key) v acc
                      match cs6.dropWhile isJsonSpace with
                      | '}' :: cs7 => some (.obj acc2, cs7)
                      | ',' :: cs7 => jsonParseMembers fuel (',' :: cs7) acc2
                      | _ => none
                  else none
                | [] => none
            else none
          | [] => none

/-- Elements of an array (after the opening bracket). -/
def jsonParseElements : Nat → List Char → List JValue →
    Option (JValue × List Char)
  | 0, _, _ => none
  | fuel + 1, cs, acc =>
    match cs.dropWhile isJsonSpace with
    | [] => none
    | c :: rest =>
      if c == ']' then
        if acc.isEmpty then some (.arr acc.reverse, rest) else none
      else
        match (if acc.isEmpty then some (c :: rest)
               else if c == ',' then some rest else none) with
        | none => none
        | some cs2 =>
          match jsonParseValue fuel cs2 with
          | none => none
          | some (v, cs3) =>
            match cs3.dropWhile isJsonSpace with
            | ']' :: cs4 => some (.arr (v :: acc).reverse, cs4)
            | ',' :: cs4 => jsonParseElements fuel (',' :: cs4) (v :: acc)
            | _ => none

end

/-- `json.loads`: parse one value, then require only whitespace to remain. -/
def jsonLoads (s : String) : Option JValue :=
  match jsonParseValue (s.data.length + 1) s.data with
  | some (v, rest) => if (rest.dropWhile isJsonSpace).isEmpty then some v else none
  | none => none

/-! ## Format detector (`app/parsers/factory.py`) -/

/-- `FormatInfo`, with confidence in hundredths. -/
structure FormatInfo where
  format_type : String
  confidence : Int
  encoding : String := "utf-8"
  metadata : List (String × JValue) := []
  warnings : List String := []

/-- `FormatDetector.MAGIC_BYTES`, in the source's insertion order (Python
dicts iterate in insertion order). -/
def MAGIC_BYTES : List (List Nat × String) :=
  [([0x7B, 0x22], "json"),                        -- literal open-brace, quote
   ([0x5B, 0x0A], "json"),                        -- open-bracket, newline
   ([0x5B, 0x7B], "json"),                        -- open-bracket, open-brace
   ([0x3C, 0x3F, 0x78, 0x6D, 0x6C], "xml"),       -- <?xml
   ([0x3C, 0x5C, 0x3F, 0x78, 0x6D, 0x6C], "xml"), -- < backslash ? x m l
   ([0x3C, 0x68, 0x74, 0x6D, 0x6C], "html"),      -- <html
   ([0x3C, 0x48, 0x54, 0x4D, 0x4C], "html"),      -- <HTML
   ([0x3C, 0x21, 0x44, 0x4F, 0x43, 0x54, 0x59, 0x50, 0x45, 0x20,
     0x68, 0x74, 0x6D, 0x6C], "html"),            -- <!DOCTYPE html
   ([0x25, 0x50, 0x44, 0x46], "pdf"),             -- %PDF
   ([0x50, 0x4B, 0x03, 0x04], "xlsx"),            -- PK..  (also zip, docx)
   ([0x2D, 0x2D, 0x2D, 0x0A], "yaml"),            -- --- newline
   ([0x2D, 0x2D, 0x2D, 0x0D, 0x0A], "yaml"),      -- --- CR LF
   ([0xFF, 0xFE], "unicode_text"),                -- UTF-16 LE BOM
   ([0xFE, 0xFF], "unicode_text"),                -- UTF-16 BE BOM
   ([0xEF, 0xBB, 0xBF], "utf8_bom"),              -- UTF-8 BOM
   ([0x73, 0x65, 0x76, 0x65, 0x72, 0x69, 0x74, 0x79, 0x2C], "csv"),  -- severity,
   ([0x53, 0x45, 0x56, 0x45, 0x52, 0x49, 0x54, 0x59, 0x2C], "csv"),  -- SEVERITY,
   ([0x22, 0x73, 0x65, 0x76, 0x65, 0x72, 0x69, 0x74, 0x79, 0x22, 0x2C], "csv")]

/-- `FormatDetector.detect_by_magic`: first matching signature, else the
comma heuristic over the first 1KB. -/
def detectByMagic (content : List Nat) : Option String :=
  match MAGIC_BYTES.find? (fun m => bytesStartWith content m.1) with
  | some m => some m.2
  | none =>
    if (content.take 1024).contains 0x2C && (content.take 1024).count 0x2C > 5 then
      some "csv"
    else none

/-- `FormatDetector.detect_encoding`.  The `iso-8859-1`, `cp1252` and final
default branches of the source are unreachable because a strict latin-1
decode accepts every byte string. -/
def detectEncoding (content : List Nat) : String :=
  if bytesStartWith content [0xEF, 0xBB, 0xBF] then "utf-8-sig"
  else if bytesStartWith content [0xFF, 0xFE] then "utf-16-le"
  else if bytesStartWith content [0xFE, 0xFF] then "utf-16-be"
  else if (utf8DecodeStrict content).isSome then "utf-8"
  else "latin-1"

/-- `len(v)` in Python: defined for strings, lists and dicts; raises (here
`none`) on numbers, booleans and `None`. -/
def jLen : JValue → Option Nat
  | .str s => some s.length
  | .arr xs => some xs.length
  | .obj kvs => some kvs.length
  | _ => none

/-- The metadata-extraction part of `analyze_json`; `none` models the
`TypeError` a `len()` on a non-sized value raises (caught by the outer
`except Exception`). -/
def analyzeJsonMetadata (data : JValue) : Option (List (String × JValue)) :=
  match data with
  | .obj kvs =>
    let md0 := ["tool", "version", "scan_date", "scanner"].foldl
      (fun md f => match dictLookup f kvs with
        | some v => md ++ [(f, v)]
        | none => md) []
    match dictLookup "findings" kvs with
    | some v => (jLen v).map (fun n => md0 ++ [("finding_count", .num n)])
    | none =>
      match dictLookup "vulnerabilities" kvs with
      | some v => (jLen v).map (fun n => md0 ++ [("finding_count", .num n)])
      | none =>
        match dictLookup "issues" kvs with
        | some v => (jLen v).map (fun n => md0 ++ [("finding_count", .num n)])
        | none => some md0
  | _ => some []

/-- `FormatDetector.analyze_json`.  The three outcomes of the source:
successful parse (0.95 with metadata), `json.JSONDecodeError` (0.3 with a
warning), any other exception — decode failure or a `len()` failure —
("unknown", 0.0).  Warning strings keep the fixed prefix of the source's
f-strings, without the interpolated exception text. -/
def analyzeJson (content : List Nat) : FormatInfo :=
  let encoding := detectEncoding content
  match pyDecode content encoding with
  | none => { format_type := "unknown", confidence := 0, warnings := ["Analysis error"] }
  | some text =>
    match jsonLoads text with
    | none => { format_type := "json", confidence := 30, warnings := ["JSON parse error"] }
    | some data =>
      match analyzeJsonMetadata data with
      | none => { format_type := "unknown", confidence := 0, warnings := ["Analysis error"] }
      | some md =>
        { format_type := "json", confidence := 95, encoding := encoding, metadata := md }

/-- A simplified model of `xml.etree.ElementTree.fromstring` root-tag
extraction: skip whitespace and an optional `<?xml … ?>` declaration, then
read the root tag name.  It is exercised by no claim (every input the
claims mention takes the JSON or PDF path); it is included so that
`detect_format` is total on the same branches as the source. -/
def xmlRootTag (text : String) : Option String :=
  let cs := text.data.dropWhile isJsonSpace
  let cs :=
    if "<?xml".data.isPrefixOf cs then
      ((cs.drop 5).dropWhile (fun c => !(c == '>'))).drop 1 |>.dropWhile isJsonSpace
    else cs
  match cs with
  | '<' :: rest =>
    let tag := rest.takeWhile (fun c => !(isPySpace c || c == '>' || c == '/'))
    if tag.isEmpty || (match tag with | t :: _ => t == '?' || t == '!' | [] => true) then none
    else some (String.mk tag)
  | _ => none

/-- `FormatDetector.analyze_xml` (attribute extraction simplified to the
empty map; unused by every claim below). -/
def analyzeXml (content : List Nat) : FormatInfo :=
  let encoding := detectEncoding content
  match pyDecode content encoding with
  | none => { format_type := "unknown", confidence := 0, warnings := ["Analysis error"] }
  | some text =>
    match xmlRootTag text with
    | none => { format_type := "xml", confidence := 30, warnings := ["XML parse error"] }
    | some root =>
      let md0 := [("root_tag", JValue.str root), ("namespaces", JValue.obj [])]
      let lowText := pyLower (String.mk (text.data.take 1000))
      let md :=
        if pyContains (pyLower root) "checkov" || pyContains lowText "checkov" then
          md0 ++ [("tool", JValue.str "checkov")]
        else if pyContains (pyLower root) "prowler" || pyContains lowText "prowler" then
          md0 ++ [("tool", JValue.str "prowler")]
        else md0
      { format_type := "xml", confidence := 90, encoding := encoding, metadata := md }

/-- `FormatDetector.detect_format`: magic bytes, then format-specific
analyzers, then extension fallback at confidence 0.6, else unknown. -/
def detectFormat (content : List Nat) (filename : String) : FormatInfo :=
  let ft := detectByMagic content
  if ft == some "json" then analyzeJson content
  else if ft == some "xml" then analyzeXml content
  else if ft == some "csv" then
    { format_type := "csv", confidence := 80, encoding := detectEncoding content }
  else if ft == some "pdf" then
    { format_type := "pdf", confidence := 80, encoding := "binary" }
  else if ft == some "xlsx" then
    { format_type := "xlsx", confidence := 80, encoding := "binary" }
  else if !(filename == "") then
    let ext := lastComponent (pyLower filename)
    if ext == "json" then analyzeJson content
    else if ext == "xml" then analyzeXml content
    else if ["csv", "pdf", "xlsx", "xls", "yaml", "yml"].contains ext then
      { format_type := (if ext == "yml" then "yaml" else ext), confidence := 60,
        warnings := ["Format detected by extension only"] }
    else
      { format_type := "unknown", confidence := 0, warnings := ["Could not detect file format"] }
  else
    { format_type := "unknown", confidence := 0, warnings := ["Could not detect file format"] }

/-! ## Bandit parser (`app/parsers/bandit/bandit_parser.py`)

### Sanitization (`SENSITIVE_PATTERNS` / `_sanitize_code`)

Each entry of `SENSITIVE_PATTERNS` is hand-compiled to a matcher.
A matcher, applied at one position, returns `(group-1 text, rest after the
match)` on success.  `re.sub` is the driver `reSub`: leftmost
non-overlapping matches, scanning resumes after each replacement.  All
substitutions run with `re.IGNORECASE`, hence the case-insensitive
comparisons.  Every matcher consumes at least one character, so the fuel
`input length` suffices for the driver. -/

/-- Case-insensitive literal match that also returns the consumed original
characters (regex groups capture original text). -/
def matchLitKeepCI : List Char → List Char → Option (List Char × List Char)
  | [], rest => some ([], rest)
  | _ :: _, [] => none
  | p :: ps, c :: rest =>
    if p.toLower == c.toLower then
      (matchLitKeepCI ps rest).map (fun pr => (c :: pr.1, pr.2))
    else none

/-- Regex alternation of literals, tried in order. -/
def altKeepCI (pats : List String) (cs : List Char) : Option (List Char × List Char) :=
  match pats with
  | [] => none
  | p :: ps =>
    match matchLitKeepCI p.data cs with
    | some r => some r
    | none => altKeepCI ps cs

/-- The character class `["']`. -/
def isQuoteCh (c : Char) : Bool := c == '"' || c == Char.ofNat 39

/-- Matcher for the shape `(kw₁|…|kwₙ)\s*SEP\s*["']([^"']{m,})["']`
(`m = 1` is the `+` of the password/api-key/aws patterns, `m = 8` the
`{8,}` of the secret/token pattern).  Group 1 is the matched keyword. -/
def kvMatcher (keywords : List String) (sep : Char) (minLen : Nat)
    (cs : List Char) : Option (List Char × List Char) :=
  match altKeepCI keywords cs with
  | none => none
  | some (kw, r1) =>
    match skipSpaces r1 with
    | c :: r3 =>
      if c == sep then
        match skipSpaces r3 with
        | q :: r5 =>
          if isQuoteCh q then
            let body := r5.takeWhile (fun ch => !(isQuoteCh ch))
            if body.length < minLen then none
            else
              match r5.drop body.length with
              | q2 :: r6 => if isQuoteCh q2 then some (kw, r6) else none
              | [] => none
          else none
        | [] => none
      else none
    | [] => none

/-- Matcher for `(sk-[a-zA-Z0-9]{48})`. -/
def skKeyMatcher (cs : List Char) : Option (List Char × List Char) :=
  match matchLitKeepCI "sk-".data cs with
  | none => none
  | some (kw, r) =>
    let run := r.take 48
    if run.length == 48 && run.all isAsciiAlnum then some (kw ++ run, r.drop 48)
    else none

/-- Matcher for `(AKIA[0-9A-Z]{16})`; under `re.IGNORECASE` the class
`[0-9A-Z]` also matches lowercase letters. -/
def akiaMatcher (cs : List Char) : Option (List Char × List Char) :=
  match matchLitKeepCI "AKIA".data cs with
  | none => none
  | some (kw, r) =>
    let run := r.take 16
    if run.length == 16 && run.all isAsciiAlnum then some (kw ++ run, r.drop 16)
    else none

def privateKeyTypes : List String := ["RSA ", "DSA ", "EC ", "OPENSSH "]

/-- The `-----END (RSA |DSA |EC |OPENSSH )?PRIVATE KEY-----` tail.  The
optional-group backtracking of `re` is vacuous here: when a type word
matches but the rest fails, the type-less branch fails too, because no
type word is a prefix of `PRIVATE KEY-----`. -/
def matchEndKey (cs : List Char) : Option (List Char) :=
  match matchLitCI "-----END ".data cs with
  | none => none
  | some r1 =>
    let r2 := match altKeepCI privateKeyTypes r1 with
      | some (_, r) => r
      | none => r1
    matchLitCI "PRIVATE KEY-----".data r2

/-- The lazy `[\s\S]+?` of the SSH-key pattern: earliest end-marker match. -/
def scanEndKey : List Char → Option (List Char)
  | [] => none
  | l@(_ :: t) =>
    match matchEndKey l with
    | some r => some r
    | none => scanEndKey t

/-- Matcher for the SSH private-key pattern. -/
def privateKeyMatcher (cs : List Char) : Option (List Char × List Char) :=
  match matchLitCI "-----BEGIN ".data cs with
  | none => none
  | some r1 =>
    let r2 := match altKeepCI privateKeyTypes r1 with
      | some (_, r) => r
      | none => r1
    match matchLitCI "PRIVATE KEY-----".data r2 with
    | none => none
    | some r3 =>
      match r3 with
      | [] => none
      | _ :: r4 => (scanEndKey r4).map (fun rest => (([] : List Char), rest))

/-- `re.sub`, fuelled by the input length (every matcher consumes ≥ 1
character per match). -/
def reSubAux (m : List Char → Option (List Char × List Char))
    (repl : List Char → List Char) : Nat → List Char → List Char
  | _, [] => []
  | 0, l => l
  | fuel + 1, c :: cs =>
    match m (c :: cs) with
    | some (g1, rest) => repl g1 ++ reSubAux m repl fuel rest
    | none => c :: reSubAux m repl fuel cs

def reSub (m : List Char → Option (List Char × List Char))
    (repl : List Char → List Char) (l : List Char) : List Char :=
  reSubAux m repl l.length l

/-- Replacement `\1 = "[REDACTED]"`. -/
def redactEq (g1 : List Char) : List Char := g1 ++ " = \"[REDACTED]\"".data

/-- Replacement `\1: "[REDACTED]"`. -/
def redactColon (g1 : List Char) : List Char := g1 ++ ": \"[REDACTED]\"".data

/-- `BanditParser._sanitize_code`: the eight `SENSITIVE_PATTERNS`
substitutions applied in order, case-insensitively. -/
def sanitizeCode (code : String) : String :=
  let s1 := reSub (kvMatcher ["password", "passwd", "pwd"] '=' 1) redactEq code.data
  let s2 := reSub (kvMatcher ["password", "passwd", "pwd"] ':' 1) redactColon s1
  let s3 := reSub (kvMatcher ["api_key", "apikey", "api_secret"] '=' 1) redactEq s2
  let s4 := reSub skKeyMatcher (fun _ => "[REDACTED_API_KEY]".data) s3
  let s5 := reSub akiaMatcher (fun _ => "[REDACTED_AWS_KEY]".data) s4
  let s6 := reSub (kvMatcher ["aws_secret_access_key", "aws_access_key_id"] '=' 1) redactEq s5
  let s7 := reSub (kvMatcher ["secret", "token"] '=' 8) redactEq s6
  let s8 := reSub privateKeyMatcher (fun _ => "[REDACTED_PRIVATE_KEY]".data) s7
  String.mk s8

/-! ### `can_parse` of the four parsers that complete registration

`app/parsers/__init__.py` imports (and thereby registers, through the
`@register_parser` decorator) `ProwlerV3Parser`, `ProwlerV2Parser`,
`CheckovParser` and `BanditParser`, in that order.  The document parsers
(`pdf.py`, `docx.py`, `spreadsheet.py`) never finish registration: their
`get_metadata` passes keyword arguments (`name=`, `tool=`) that
`ParserMetadata` does not accept, so `register` raises `TypeError` while
importing `app.parsers.document`, and nothing in the application imports
that package.  Confidences are in hundredths; the `try/except` around the
preview decoding is unreachable because `decode(…, errors='ignore')` is
total. -/

def banditCanParse (file_preview : List Nat) (filename : String) : Int :=
  let c1 := if pyContains (pyLower filename) "bandit" then 40 else 0
  let c2 := if pyEndsWith filename ".json" then c1 + 10 else c1
  let p := String.mk (utf8DecodeIgnore file_preview)
  let c3 := if pyContains p "\"generated_at\"" then c2 + 20 else c2
  let c4 := if pyContains p "\"metrics\"" && pyContains p "\"results\"" then c3 + 30 else c3
  let c5 := if ["\"B301\"", "\"B105\"", "\"B307\"", "\"test_id\""].any (fun t => pyContains p t)
    then c4 + 20 else c4
  let c6 := if pyContains p "\"issue_confidence\"" && pyContains p "\"issue_severity\"" then
    c5 + 20 else c5
  min c6 100

def prowlerV3CanParse (file_preview : List Nat) (filename : String) : Int :=
  let c1 := if pyContains (pyLower filename) "prowler" then 30 else 0
  let c2 := if pyEndsWith filename ".json" then c1 + 20 else c1
  let p := String.mk (utf8DecodeIgnore file_preview)
  let c3 := if pyContains p "\"prowler_version\"" then
      (if ["\"3.0", "\"3.1", "\"3.2", "\"3.3"].any (fun v => pyContains p v) then
        c2 + 30 + 20 else c2 + 30)
    else c2
  let c4 := if pyContains p "\"findings\"" then c3 + 10 else c3
  let c5 := if ["\"severity\"", "\"check_id\"", "\"compliance\""].any (fun f => pyContains p f)
    then c4 + 10 else c4
  min c5 100

def prowlerV2CanParse (file_preview : List Nat) (filename : String) : Int :=
  let c1 := if pyContains (pyLower filename) "prowler" then 30 else 0
  if pyEndsWith filename ".json" then
    let c2 := c1 + 10
    let p := String.mk (utf8DecodeIgnore file_preview)
    let c3 := if pyContains p "\"prowler_version\"" && pyContains p "\"2." then c2 + 40 else c2
    let c4 := if ["\"level\"", "\"scored\"", "\"result_extended\""].any (fun f => pyContains p f)
      then c3 + 20 else c3
    min c4 100
  else if pyEndsWith filename ".csv" then
    let c2 := c1 + 10
    let p := String.mk (utf8DecodeIgnore file_preview)
    let c3 := if ["CHECK_ID", "LEVEL", "SERVICE"].all (fun h => pyContains p h) then c2 + 50
      else c2
    min c3 100
  else min c1 100

def checkovCanParse (file_preview : List Nat) (filename : String) : Int :=
  let c1 := if pyContains (pyLower filename) "checkov" then 40 else 0
  let c2 := if pyEndsWith filename ".json" || pyEndsWith filename ".sarif" then c1 + 20 else c1
  let p := String.mk (utf8DecodeIgnore file_preview)
  let c3 := if pyContains p "\"check_type\"" then c2 + 30 else c2
  let c4 := if pyContains p "\"failed_checks\"" || pyContains p "\"passed_checks\"" then c3 + 20
    else c3
  let c5 := if ["\"CKV_", "\"CKV2_", "\"BC_"].any (fun c => pyContains p c) then c4 + 20 else c4
  let c6 := if pyContains p "\"$schema\"" && pyContains p "sarif" then
      (if pyContains p "\"tool\"" && pyContains p "\"Checkov\"" then c5 + 20 + 20 else c5 + 20)
    else c5
  min c6 100

/-! ### `BanditParser._process_result` and `parse_stream` -/

/-- The `tool_metadata` dict `_process_result` builds: the base entries,
the conditional CWE entries (`if cwe_id:` and `if cwe_link:` are truthiness
tests), then the `is not None` comprehension filter. -/
def banditToolMeta (r : List (String × JValue)) (codeSnippet : JValue) :
    List (String × JValue) :=
  let cweInfo := jGetD r "issue_cwe" (.obj [])
  let cweId : JValue := match cweInfo with
    | .obj kvs => jGet kvs "id"
    | _ => .null
  let cweLink : JValue := match cweInfo with
    | .obj kvs => jGet kvs "link"
    | _ => .null
  let rawMeta : List (String × JValue) :=
    [("test_id", jGet r "test_id"),
     ("test_name", jGet r "test_name"),
     ("filename", jGet r "filename"),
     ("line_number", jGet r "line_number"),
     ("line_range", jGet r "line_range"),
     ("confidence", jGetD r "issue_confidence" (.str "MEDIUM")),
     ("code_snippet", codeSnippet)]
  let rawMeta := rawMeta ++
    (if jTruthy cweId then [("cwe_id", cweId)] else []) ++
    (if jTruthy cweLink then [("cwe_link", cweLink)] else [])
  rawMeta.filter (fun kv => !(jIsNull kv.2))

/-- `BanditParser._process_result`.  The body runs under `try/except`; the
reachable exception exits — a non-dict result (`.get` missing), a
non-string `issue_severity` (`.upper()`), a truthy non-string `code`
(`re.sub`) — become `none` (the source logs and skips the record). -/
def banditProcessResult (result : JValue) : Option Finding :=
  match result with
  | .obj r =>
    let sevOpt : Option String :=
      match dictLookup "issue_severity" r with
      | none => some "MEDIUM"
      | some (.str s) => some (pyUpper s)
      | some _ => none
    match sevOpt with
    | none => none
    | some sevStr =>
      let severity : SeverityLevel :=
        if sevStr == "HIGH" then .HIGH
        else if sevStr == "MEDIUM" then .MEDIUM
        else if sevStr == "LOW" then .LOW
        else .MEDIUM
      let codeVal := jGetD r "code" (.str "")
      let snippetOpt : Option JValue :=
        if jTruthy codeVal then
          match codeVal with
          | .str s => some (.str (sanitizeCode s))
          | _ => none
        else some codeVal
      match snippetOpt with
      | none => none
      | some codeSnippet =>
        let toolMeta := banditToolMeta r codeSnippet
        let lineNumber : Option Int :=
          match dictLookup "line_number" r with
          | some (.num q) => if q.den == 1 then some q.num else none
          | some (.bool b) => some (if b then 1 else 0)
          | some (.str s) => pyParseInt s
          | _ => none
        let title : JValue :=
          match dictLookup "test_name" r with
          | some v => v
          | none =>
            match dictLookup "test_id" r with
            | some v => v
            | none => .str "Unknown Test"
        let f : Finding :=
          { title := title, description := jGetD r "issue_text" (.str ""),
            severity := severity, tool_source := "bandit",
            tool_metadata := toolMeta, category := some "security" }
        let f := match dictLookup "filename" toolMeta with
          | some v => if jTruthy v then { f with location := some v } else f
          | none => f
        let f := match lineNumber with
          | some n => if !(n == 0) then { f with line_number := some n } else f
          | none => f
        some f
  | _ => none

/-- Outcome of a full `parse_stream` run: the yielded findings, or a
raised `ParseError`. -/
inductive StreamOutcome where
  | ok (findings : List Finding)
  | parseError (yielded : List Finding)

/-- `BanditParser.parse_stream` over the accumulated content.  Decode and
`json.loads` failures raise `ParseError` before anything is yielded.
A top-level non-dict raises through `.get`; `results` values that are
iterable but yield non-dict items produce no findings (each record is
skipped inside `_process_result`); a non-iterable `results` raises. -/
def banditParseStream (content : List Nat) : StreamOutcome :=
  match utf8DecodeStrict content with
  | none => .parseError []
  | some chars =>
    match jsonLoads (String.mk chars) with
    | none => .parseError []
    | some data =>
      match data with
      | .obj kvs =>
        match jGetD kvs "results" (.arr []) with
        | .arr items => .ok (items.filterMap banditProcessResult)
        | .str _ => .ok []
        | .obj _ => .ok []
        | _ => .parseError []
      | _ => .parseError []

/-! ## Registry lookup and factory selection
(`app/parsers/registry.py`, `app/parsers/factory.py`) -/

/-- A registered parser as the factory sees it: its `can_parse` estimator,
its declared `confidence_threshold` (hundredths; the `ParserMetadata`
default is 0.7) and its tool name. -/
structure ParserSpec where
  toolName : String
  canParse : List Nat → String → Int
  threshold : Int := 70

/-- The four parsers whose registration succeeds, in registration order
(`app/parsers/__init__.py` import order). -/
def prowlerV3Spec : ParserSpec := { toolName := "prowler", canParse := prowlerV3CanParse }

def prowlerV2Spec : ParserSpec := { toolName := "prowler", canParse := prowlerV2CanParse }

def checkovSpec : ParserSpec := { toolName := "checkov", canParse := checkovCanParse }

def banditSpec : ParserSpec := { toolName := "bandit", canParse := banditCanParse }

def registeredParsers : List ParserSpec :=
  [prowlerV3Spec, prowlerV2Spec, checkovSpec, banditSpec]

/-- Stable insertion for a descending sort by confidence: an earlier
element is placed before every later element of equal confidence, which is
exactly the guarantee of Python's stable `list.sort(key=…, reverse=True)`. -/
def insertByConfDesc (x : ParserSpec × Int) :
    List (ParserSpec × Int) → List (ParserSpec × Int)
  | [] => [x]
  | y :: ys => if y.2 ≤ x.2 then x :: y :: ys else y :: insertByConfDesc x ys

/-- Stable descending sort by confidence (`candidates.sort(key=lambda x:
x[1], reverse=True)`). -/
def sortByConfDesc : List (ParserSpec × Int) → List (ParserSpec × Int)
  | [] => []
  | x :: xs => insertByConfDesc x (sortByConfDesc xs)

/-- `ParserRegistry.get_compatible_parsers`: score every registered
parser, keep confidences strictly above zero, sort descending.  The
per-candidate `try/except` of the source is unreachable: every embedded
`can_parse` is total. -/
def getCompatibleParsers (ps : List ParserSpec) (file_preview : List Nat)
    (filename : String) : List (ParserSpec × Int) :=
  sortByConfDesc
    ((ps.map (fun p => (p, p.canParse file_preview filename))).filter
      (fun pc => 0 < pc.2))

/-- `ParserRegistry.get_parser_for_tool` with no version argument: the
first registered parser for the tool (`_tool_index` lists parsers for a
tool in registration order, so it is the first matching element). -/
def getParserForTool (ps : List ParserSpec) (tool_name : String) : Option ParserSpec :=
  (ps.filter (fun p => p.toolName == tool_name)).head?

/-- `ParserFactory.get_parser`.  The result pairs the chosen parser with a
flag that is `true` exactly on the degraded-selection path (the source's
"low confidence" warning).  `none` is the source's `return None`. -/
def getParser (ps : List ParserSpec) (file_preview : List Nat) (filename : String)
    (preferred_tool : Option String) : Option (ParserSpec × Bool) :=
  let fromPreferred : Option (ParserSpec × Bool) :=
    match preferred_tool with
    | some tool =>
      match getParserForTool ps tool with
      | some p =>
        if p.threshold ≤ p.canParse file_preview filename then some (p, false) else none
      | none => none
    | none => none
  match fromPreferred with
  | some r => some r
  | none =>
    match getCompatibleParsers ps file_preview filename with
    | [] => none
    | best :: rest =>
      match (best :: rest).find? (fun pc => pc.1.threshold ≤ pc.2) with
      | some pc => some (pc.1, false)
      | none => some (best.1, true)

/-! ## Registry registration (`ParserRegistry.register`) -/

/-- A registry entry: the implementation identity (the class name, which
is what `register` compares) and the declared tool name. -/
structure RegEntry where
  className : String
  toolName : String
deriving DecidableEq, Repr

/-- The mutable registry state: the parser list and the tool index. -/
structure RegistryState where
  parsers : List RegEntry
  toolIndex : List (String × List RegEntry)
deriving DecidableEq, Repr

/-- A parser class as `register` examines it: its name, whether it is an
`AbstractParser` subclass, whether instantiation succeeds, and the tool
name its metadata declares. -/
structure ParserClassSpec where
  className : String
  isAbstractParserSubclass : Bool := true
  instantiationSucceeds : Bool := true
  toolName : String
deriving DecidableEq, Repr

/-- `defaultdict(list)` append: `self._tool_index[tool].append(entry)`. -/
def toolIndexAdd (idx : List (String × List RegEntry)) (tool : String)
    (e : RegEntry) : List (String × List RegEntry) :=
  if idx.any (fun p => p.1 == tool) then
    idx.map (fun p => if p.1 == tool then (p.1, p.2 ++ [e]) else p)
  else idx ++ [(tool, [e])]

/-- `ParserRegistry.register`, in the statement order of the source: the
subclass check, instantiation, the duplicate check — each of which raises
(second component `some message`) before any mutation — and only then the
two mutations.  The returned state is the registry after the call. -/
def registerParser (reg : RegistryState) (pc : ParserClassSpec) :
    RegistryState × Option String :=
  if !pc.isAbstractParserSubclass then
    (reg, some (pc.className ++ " must inherit from AbstractParser"))
  else if !pc.instantiationSucceeds then
    (reg, some ("Failed to instantiate " ++ pc.className))
  else if reg.parsers.any (fun e => e.toolName == pc.toolName && e.className == pc.className)
  then
    (reg, some ("Parser for " ++ pc.toolName ++ " already registered: " ++ pc.className))
  else
    let entry : RegEntry := { className := pc.className, toolName := pc.toolName }
    ({ parsers := reg.parsers ++ [entry],
       toolIndex := toolIndexAdd reg.toolIndex pc.toolName entry }, none)

/-! ## Prowler v3 streaming parser
(`app/parsers/prowler/prowler_v3_parser.py`)

`parse_stream` accumulates the byte stream, then iterates the
`(prefix, event, value)` triples `ijson.parse` produces.  The embedding
works directly on that event sequence: `JEvent` is one triple (`ev` is the
event-name string the source compares against; `val` is the scalar value,
`.null` for structural events and the key string for `map_key` events).
A malformed or truncated input is an event sequence that ends where the
`ijson` iterator raises; the `err` flag of `prowlerV3ParseStream` states
whether iteration ended with such an error. -/

structure JEvent where
  pfx : String
  ev : String
  val : JValue

/-- The iteration state of the `parse_stream` loop; `yielded` collects the
findings the generator has emitted (flushed batches). -/
structure PV3State where
  inFindingsArray : Bool
  inFindingObject : Bool
  inCompliance : Bool
  currentFramework : Option String
  currentFinding : List (String × JValue)
  batch : List Finding
  findingsCount : Nat
  yielded : List Finding

def prowlerV3BatchSize : Nat := 1000

/-- The `severity_map` dict of `_process_finding`. -/
def prowlerSeverityMap (s : String) : Option SeverityLevel :=
  if s == "critical" then some .CRITICAL
  else if s == "high" then some .HIGH
  else if s == "medium" then some .MEDIUM
  else if s == "low" then some .LOW
  else if s == "informational" then some .LOW
  else none

/-- `ProwlerV3Parser._process_finding`.  `none` covers the source's two
skip paths: an explicit `status == "PASS"`, and the `except` branch —
whose only reachable trigger is `.lower()` on a `severity` value that is
present but not a string. -/
def prowlerV3ProcessFinding (d : List (String × JValue)) : Option Finding :=
  if (match dictLookup "status" d with
      | some (.str s) => s == "PASS"
      | _ => false) then none
  else
    match (match dictLookup "severity" d with
           | none => some "medium"
           | some (.str s) => some (pyLower s)
           | some _ => none) with
    | none => none
    | some severityStr =>
      let severity := (prowlerSeverityMap severityStr).getD .MEDIUM
      let rawMeta : List (String × JValue) :=
        [("check_id", jGet d "check_id"),
         ("service_name", jGet d "service_name"),
         ("resource_id", jGet d "resource_id"),
         ("resource_type", jGet d "resource_type"),
         ("region", jGetD d "region" (.str "global")),
         ("provider", jGetD d "provider" (.str "aws")),
         ("status", jGet d "status"),
         ("risk", jGet d "risk"),
         ("remediation", jGet d "remediation"),
         ("compliance", jGetD d "compliance" (.obj [])),
         ("resource_details", jGetD d "resource_details" (.obj []))]
      let toolMeta := rawMeta.filter (fun kv => !(jIsNull kv.2)) ++ [("original_data", .obj d)]
      let title : JValue :=
        match dictLookup "check_title" d with
        | some v => v
        | none =>
          match dictLookup "check_id" d with
          | some v => v
          | none => .str "Unknown Check"
      let f : Finding :=
        { title := title, description := jGetD d "description" (.str ""),
          severity := severity, tool_source := "prowler",
          tool_metadata := toolMeta, category := some "compliance" }
      let f := match dictLookup "resource_id" toolMeta with
        | some v => if jTruthy v then { f with resource_name := some v } else f
        | none => f
      let f := match dictLookup "resource_type" toolMeta with
        | some v => if jTruthy v then { f with resource_type := some v } else f
        | none => f
      some f

/-- Close of a record object (the `end_map` branch, source lines 100–117):
leave the object, process the accumulated map, batch the finding, flush
the batch in arrival order once it reaches `batch_size`. -/
def prowlerV3Push (st : PV3State) : PV3State :=
  let st := { st with inFindingObject := false }
  match prowlerV3ProcessFinding st.currentFinding with
  | some f =>
    let batch := st.batch ++ [f]
    let count := st.findingsCount + 1
    if prowlerV3BatchSize ≤ batch.length then
      { st with batch := [], findingsCount := count, yielded := st.yielded ++ batch }
    else
      { st with batch := batch, findingsCount := count }
  | none => st

/-- The dead compliance sub-branches (source lines 124–135).  They are
unreachable — `in_compliance` can only be set by a branch whose guard
requires `event == "start_map"` inside a conditional that excludes
`start_map` — but are carried faithfully. -/
def prowlerV3ComplianceStep (st : PV3State) (e : JEvent) : PV3State :=
  if e.ev == "end_map" && pyEndsWith e.pfx ".compliance" then
    { st with inCompliance := false, currentFramework := none }
  else if e.ev == "start_array" then
    let fw := lastComponent e.pfx
    { st with currentFramework := some fw,
              currentFinding :=
                (match dictLookup "compliance" st.currentFinding with
                 | some (.obj m) =>
                   dictInsert "compliance" (.obj (dictInsert fw (.arr []) m)) st.currentFinding
                 | _ => st.currentFinding) }
  else if e.ev == "string" && st.currentFramework.isSome then
    let fw := st.currentFramework.getD ""
    { st with currentFinding :=
        (match dictLookup "compliance" st.currentFinding with
         | some (.obj m) =>
           (match dictLookup fw m with
            | some (.arr xs) =>
              dictInsert "compliance" (.obj (dictInsert fw (.arr (xs ++ [e.val])) m))
                st.currentFinding
            | _ => st.currentFinding)
         | _ => st.currentFinding) }
  else st

/-- One iteration of the `for prefix, event, value in parser:` loop. -/
def prowlerV3Step (st : PV3State) (e : JEvent) : PV3State :=
  let st :=
    if e.pfx == "findings" && e.ev == "start_array" then
      { st with inFindingsArray := true }
    else if e.pfx == "findings" && e.ev == "end_array" then
      { st with inFindingsArray := false }
    else st
  if st.inFindingsArray then
    if e.pfx == "findings.item" && e.ev == "start_map" then
      { st with inFindingObject := true, currentFinding := [] }
    else if e.pfx == "findings.item" && e.ev == "end_map" then
      prowlerV3Push st
    else if st.inFindingObject &&
        !(e.ev == "start_map" || e.ev == "end_map" ||
          e.ev == "start_array" || e.ev == "end_array") then
      let fieldName := lastComponent e.pfx
      if fieldName == "compliance" && e.ev == "start_map" then
        -- dead: the enclosing guard excludes "start_map"
        { st with inCompliance := true,
                  currentFinding := dictInsert "compliance" (.obj []) st.currentFinding }
      else if st.inCompliance then
        prowlerV3ComplianceStep st e
      else
        { st with currentFinding := dictInsert fieldName e.val st.currentFinding }
    else st
  else st

def prowlerV3InitState : PV3State :=
  { inFindingsArray := false, inFindingObject := false, inCompliance := false,
    currentFramework := none, currentFinding := [], batch := [],
    findingsCount := 0, yielded := [] }

/-- `ProwlerV3Parser.parse_stream` over an event sequence.  On normal
completion the remaining batch is yielded (lines 139–141); when the event
iterator raises (`err = true`) the `except` clause yields the buffered
batch and then raises `ParseError` (lines 147–152).  Either way the
emitted findings are `yielded ++ batch` of the final state. -/
def prowlerV3ParseStream (evs : List JEvent) (err : Bool) : StreamOutcome :=
  let st := evs.foldl prowlerV3Step prowlerV3InitState
  if err then .parseError (st.yielded ++ st.batch) else .ok (st.yielded ++ st.batch)

/-! ### The event encoding of a well-formed findings document

`ijson.parse` over `{"findings": [r₁, …, rₙ]}` — each `rᵢ` a flat JSON
object of scalar fields — produces exactly the events below (prelude,
per-record events, closure). -/

/-- The event name `ijson` gives a scalar value. -/
def scalarEventName : JValue → String
  | .str _ => "string"
  | .num _ => "number"
  | .bool _ => "boolean"
  | _ => "null"

/-- The two events of one scalar field of a record: the `map_key` event
(whose value is the key) and the value event. -/
def fieldEvents (k : String) (v : JValue) : List JEvent :=
  [⟨"findings.item", "map_key", .str k⟩,
   ⟨"findings.item." ++ k, scalarEventName v, v⟩]

/-- The events of one record object of the findings array. -/
def recordEvents (r : List (String × JValue)) : List JEvent :=
  ⟨"findings.item", "start_map", .null⟩ ::
    (r.flatMap (fun kv => fieldEvents kv.1 kv.2) ++
      [⟨"findings.item", "end_map", .null⟩])

/-- The events before the first record: document open, the `findings` key,
array open. -/
def docOpenEvents : List JEvent :=
  [⟨"", "start_map", .null⟩, ⟨"", "map_key", .str "findings"⟩,
   ⟨"findings", "start_array", .null⟩]

/-- The events of the complete, well-closed document. -/
def findingsDocEvents (rs : List (List (String × JValue))) : List JEvent :=
  docOpenEvents ++ rs.flatMap recordEvents ++
    [⟨"findings", "end_array", .null⟩, ⟨"", "end_map", .null⟩]

/-- The field map the loop accumulates for one record: each field inserts
`"item" ↦ key` (the `map_key` event is routed through
`prefix.split(".")[-1]`, which is `"item"`) and then `key ↦ value`. -/
def buildDict (r : List (String × JValue)) : List (String × JValue) :=
  r.foldl (fun d kv => dictInsert kv.1 kv.2 (dictInsert "item" (.str kv.1) d)) []

/-- What one array record contributes to the output. -/
def prowlerV3Convert (r : List (String × JValue)) : Option Finding :=
  prowlerV3ProcessFinding (buildDict r)

/-- The records the spec calls qualifying, as the code determines them
from the accumulated map: not marked `PASS`, and convertible — the
`severity` field, when present, is a string (a present non-string
severity makes `_process_finding` raise and the record is skipped). -/
def recordQualifies (r : List (String × JValue)) : Bool :=
  (match dictLookup "status" (buildDict r) with
   | some (.str s) => !(s == "PASS")
   | _ => true) &&
  (match dictLookup "severity" (buildDict r) with
   | none => true
   | some (.str _) => true
   | some _ => false)

/-! ## Helper lemmas -/

/-- Projections of a full `parse_stream` run. -/
def outcomeFindings : StreamOutcome → List Finding
  | .ok fs => fs
  | .parseError fs => fs

def outcomeIsOk : StreamOutcome → Bool
  | .ok _ => true
  | .parseError _ => false

lemma filterMap_length_of_isSome {α β : Type} (f : α → Option β) :
    ∀ l : List α, (∀ x ∈ l, (f x).isSome) → (l.filterMap f).length = l.length := by
  intro l
  induction l with
  | nil => intro _; rfl
  | cons a t ih =>
    intro h
    have ha := h a (List.mem_cons_self a t)
    rcases hfa : f a with _ | b
    · rw [hfa] at ha; simp at ha
    · simp [List.filterMap_cons, hfa, ih (fun x hx => h x (List.mem_cons_of_mem a hx))]

lemma scoreH_nonneg (f : PatternFinding) : 0 ≤ scoreH f := by
  unfold scoreH; split_ifs <;> omega

lemma scoreH_le_of_no_desc (f : PatternFinding) (h : strTruthy f.description = false) :
    scoreH f ≤ 75 := by
  unfold scoreH
  rw [h]
  simp only [Bool.false_eq_true, if_false]
  split_ifs <;> omega

lemma maxScoreH_pos (f : PatternFinding) : 0 < maxScoreH f := by
  unfold maxScoreH; split_ifs <;> omega

lemma calculateConfidence_le_of (f g : PatternFinding) (h1 : maxScoreH f = maxScoreH g)
    (h2 : scoreH f ≤ scoreH g) : calculateConfidence f ≤ calculateConfidence g := by
  unfold calculateConfidence
  rw [h1, if_pos (maxScoreH_pos g), if_pos (maxScoreH_pos g)]
  have hm : (0 : ℚ) < (maxScoreH g : ℚ) := by exact_mod_cast maxScoreH_pos g
  rw [div_le_div_iff_of_pos_right hm]
  exact_mod_cast h2

/-! ## C4 — duplicate registration -/

/-- C4: registering a parser whose `(tool_name, implementation)` pair is
already registered raises the registration error and leaves the registry
exactly as it was: after a successful registration of `pc`, a second
`register` of `pc` reports an error and returns the state unchanged. -/
theorem duplicate_registration_rejected_and_unchanged
    (reg reg1 : RegistryState) (pc : ParserClassSpec)
    (h : registerParser reg pc = (reg1, none)) :
    (registerParser reg1 pc).1 = reg1 ∧ (registerParser reg1 pc).2.isSome := by
  unfold registerParser at h ⊢
  cases hsub : pc.isAbstractParserSubclass with
  | false => simp [hsub] at h
  | true =>
    cases hinst : pc.instantiationSucceeds with
    | false => simp [hsub, hinst] at h
    | true =>
      cases hdup : reg.parsers.any
          (fun e => e.toolName == pc.toolName && e.className == pc.className) with
      | true =>
        rw [hsub, hinst, hdup] at h
        simp at h
      | false =>
        rw [hsub, hinst, hdup] at h
        simp only [Bool.not_true, Bool.false_eq_true, Bool.not_false, Bool.true_eq_false,
          if_false, if_true, ite_false, ite_true, Prod.mk.injEq] at h
        have hreg : reg1.parsers = reg.parsers ++
            [{ className := pc.className, toolName := pc.toolName }] := by
          rw [← h.1]
        have hdup1 : reg1.parsers.any
            (fun e => e.toolName == pc.toolName && e.className == pc.className) = true := by
          rw [hreg, List.any_append]
          simp
        rw [hdup1]
        simp

/-- Witness for C4 at a concrete registry and parser class. -/
theorem duplicate_registration_rejected_and_unchanged_witness :
    (registerParser (registerParser ⟨[], []⟩ ⟨"BanditParser", true, true, "bandit"⟩).1
      ⟨"BanditParser", true, true, "bandit"⟩).1 =
        (registerParser ⟨[], []⟩ ⟨"BanditParser", true, true, "bandit"⟩).1 ∧
    (registerParser (registerParser ⟨[], []⟩ ⟨"BanditParser", true, true, "bandit"⟩).1
      ⟨"BanditParser", true, true, "bandit"⟩).2.isSome := by
  exact duplicate_registration_rejected_and_unchanged ⟨[], []⟩ _
    ⟨"BanditParser", true, true, "bandit"⟩ (by decide)

/-! ## C5 — the PDF magic bytes always win -/

/-- C5: every byte string beginning with `%PDF`, whatever the filename, is
classified as `pdf` — no earlier magic signature, the comma heuristic or
the extension fallback is reachable, so no other `format_type` can be
produced for it. -/
theorem pdf_magic_always_pdf (content : List Nat) (filename : String)
    (h : bytesStartWith content [0x25, 0x50, 0x44, 0x46]) :
    (detectFormat content filename).format_type = "pdf" := by
  have h' : [0x25, 0x50, 0x44, 0x46] <+: content := by
    simpa [bytesStartWith, List.isPrefixOf_iff_prefix] using h
  obtain ⟨t, rfl⟩ := h'
  have hm : detectByMagic ([0x25, 0x50, 0x44, 0x46] ++ t) = some "pdf" := by
    unfold detectByMagic MAGIC_BYTES
    simp [List.find?, bytesStartWith, List.isPrefixOf]
  unfold detectFormat
  rw [hm]
  simp

/-- Witness for C5 at a concrete content and an adversarial `.json`
filename. -/
theorem pdf_magic_always_pdf_witness :
    bytesStartWith [0x25, 0x50, 0x44, 0x46, 0x2D, 0x31] [0x25, 0x50, 0x44, 0x46] = true ∧
    (detectFormat [0x25, 0x50, 0x44, 0x46, 0x2D, 0x31] "report.json").format_type = "pdf" :=
  ⟨by decide, pdf_magic_always_pdf [0x25, 0x50, 0x44, 0x46, 0x2D, 0x31] "report.json"
    (by decide)⟩

/-! ## C6 — the severity mapper's fixed precedence -/

/-- C6: `map_severity` resolves its four reference inputs as specified:
a CVSS score of 9.5 is CRITICAL, priority P1 is HIGH, the keyword
"moderate" maps to MEDIUM, and the empty string falls back to MEDIUM. -/
theorem map_severity_reference_values :
    mapSeverity "CVSS: 9.5" = .CRITICAL ∧
    mapSeverity "P1" = .HIGH ∧
    mapSeverity "moderate risk" = .MEDIUM ∧
    mapSeverity "" = .MEDIUM := by
  refine ⟨?_, ?_, ?_, ?_⟩ <;> decide

/-! ## C7 — monotonicity of the confidence scorer -/

/-- `g` is `f` with exactly one additional applicable field populated (a
previously-falsy field set to a truthy value), everything else unchanged. -/
def PopulatesOneField (f g : PatternFinding) : Prop :=
  (∃ v, strTruthy f.title = false ∧ strTruthy (some v) = true ∧
    g = { f with title := some v }) ∨
  (∃ v, strTruthy f.severity = false ∧ strTruthy (some v) = true ∧
    g = { f with severity := some v }) ∨
  (∃ v, strTruthy f.description = false ∧ strTruthy (some v) = true ∧
    g = { f with description := some v }) ∨
  (∃ v, listTruthy f.files = false ∧ listTruthy (some v) = true ∧
    g = { f with files := some v }) ∨
  (∃ v, listTruthy f.line_numbers = false ∧ listTruthy (some v) = true ∧
    g = { f with line_numbers := some v }) ∨
  (∃ v, listTruthy f.references = false ∧ listTruthy (some v) = true ∧
    g = { f with references := some v }) ∨
  (∃ v, strTruthy f.vulnerability_type = false ∧ strTruthy (some v) = true ∧
    g = { f with vulnerability_type := some v })

/-- C7: `calculate_confidence` is monotone — populating any additional
applicable field never decreases the score, including the description
case, where the denominator itself grows from 0.95 to 1.05. -/
theorem calculate_confidence_monotone (f g : PatternFinding)
    (h : PopulatesOneField f g) :
    calculateConfidence f ≤ calculateConfidence g := by
  rcases h with ⟨v, hf, hv, rfl⟩ | ⟨v, hf, hv, rfl⟩ | ⟨v, hf, hv, rfl⟩ |
    ⟨v, hf, hv, rfl⟩ | ⟨v, hf, hv, rfl⟩ | ⟨v, hf, hv, rfl⟩ | ⟨v, hf, hv, rfl⟩
  case inr.inr.inl =>
    -- the description case: numerator gains at least 20, denominator 95 → 105
    have hs0 := scoreH_nonneg f
    have hs75 := scoreH_le_of_no_desc f hf
    have hmf : maxScoreH f = 95 := by unfold maxScoreH; rw [hf]; simp
    have hmg : maxScoreH { f with description := some v } = 105 := by
      unfold maxScoreH; simp [hv]
    have hsg : scoreH f + 20 ≤ scoreH { f with description := some v } := by
      unfold scoreH
      simp [hf, hv]
      split_ifs <;> omega
    unfold calculateConfidence
    rw [hmf, hmg]
    rw [if_pos (by norm_num), if_pos (by norm_num)]
    push_cast
    rw [div_le_div_iff₀ (by norm_num) (by norm_num)]
    have h1 : (scoreH f : ℚ) ≤ 75 := by exact_mod_cast hs75
    have h2 : (0 : ℚ) ≤ (scoreH f : ℚ) := by exact_mod_cast hs0
    have h3 : (scoreH f : ℚ) + 20 ≤ (scoreH { f with description := some v } : ℚ) := by
      exact_mod_cast hsg
    linarith
  all_goals {
    refine calculateConfidence_le_of _ _ (by unfold maxScoreH; rfl) ?_
    unfold scoreH
    simp [hf, hv]
    try split_ifs <;> omega
  }

/-- Witness for C7: populating the title on an otherwise empty record. -/
theorem calculate_confidence_monotone_witness :
    calculateConfidence {} ≤ calculateConfidence { title := some "SQL Injection" } := by
  refine calculate_confidence_monotone {} _ (Or.inl ⟨"SQL Injection", ?_, ?_, ?_⟩) <;> rfl

/-! ## C8 — every registered parser's `can_parse` is total with a
confidence in [0,1] -/

lemma minBounds (c : Int) (h : 0 ≤ c) : 0 ≤ min c 100 ∧ min c 100 ≤ 100 :=
  ⟨le_min h (by norm_num), min_le_right c 100⟩

lemma prowlerV3CanParse_bounds (pv : List Nat) (fn : String) :
    0 ≤ prowlerV3CanParse pv fn ∧ prowlerV3CanParse pv fn ≤ 100 := by
  unfold prowlerV3CanParse
  dsimp only
  apply minBounds
  split_ifs <;> omega

lemma prowlerV2CanParse_bounds (pv : List Nat) (fn : String) :
    0 ≤ prowlerV2CanParse pv fn ∧ prowlerV2CanParse pv fn ≤ 100 := by
  unfold prowlerV2CanParse
  dsimp only
  split_ifs <;> (apply minBounds) <;> (try split_ifs) <;> omega

lemma checkovCanParse_bounds (pv : List Nat) (fn : String) :
    0 ≤ checkovCanParse pv fn ∧ checkovCanParse pv fn ≤ 100 := by
  unfold checkovCanParse
  dsimp only
  split_ifs <;> (apply minBounds) <;> (try split_ifs) <;> omega

lemma banditCanParse_bounds (pv : List Nat) (fn : String) :
    0 ≤ banditCanParse pv fn ∧ banditCanParse pv fn ≤ 100 := by
  unfold banditCanParse
  dsimp only
  split_ifs <;> (apply minBounds) <;> (try split_ifs) <;> omega

/-- C8: for every parser whose registration succeeds and arbitrary
preview bytes and filename, `can_parse` — a total function here, as in
the source, where every internal failure path is caught or unreachable —
returns a confidence inside [0,1]. -/
theorem registered_can_parse_within_unit_interval :
    ∀ p ∈ registeredParsers, ∀ (file_preview : List Nat) (filename : String),
      0 ≤ (p.canParse file_preview filename : ℚ) / 100 ∧
      (p.canParse file_preview filename : ℚ) / 100 ≤ 1 := by
  intro p hp pv fn
  have hb : 0 ≤ p.canParse pv fn ∧ p.canParse pv fn ≤ 100 := by
    simp only [registeredParsers, List.mem_cons, List.not_mem_nil, or_false] at hp
    rcases hp with rfl | rfl | rfl | rfl
    · exact prowlerV3CanParse_bounds pv fn
    · exact prowlerV2CanParse_bounds pv fn
    · exact checkovCanParse_bounds pv fn
    · exact banditCanParse_bounds pv fn
  constructor
  · apply div_nonneg _ (by norm_num)
    exact_mod_cast hb.1
  · rw [div_le_one (by norm_num)]
    exact_mod_cast hb.2

/-- Witness for C8 at the bandit parser on concrete junk input. -/
theorem registered_can_parse_within_unit_interval_witness :
    0 ≤ (banditSpec.canParse [0xFF, 0x00] "x.bin" : ℚ) / 100 ∧
    (banditSpec.canParse [0xFF, 0x00] "x.bin" : ℚ) / 100 ≤ 1 :=
  registered_can_parse_within_unit_interval banditSpec
    (by simp [registeredParsers]) [0xFF, 0x00] "x.bin"

/-! ## C3 — fail-open parser selection -/

lemma mem_insertByConfDesc {x y : ParserSpec × Int} {l : List (ParserSpec × Int)} :
    y ∈ insertByConfDesc x l ↔ y = x ∨ y ∈ l := by
  induction l with
  | nil => simp [insertByConfDesc]
  | cons a t ih =>
    unfold insertByConfDesc
    split_ifs
    · simp
    · simp only [List.mem_cons, ih]
      tauto

lemma pairwise_insertByConfDesc {x : ParserSpec × Int} {l : List (ParserSpec × Int)}
    (h : l.Pairwise (fun a b => b.2 ≤ a.2)) :
    (insertByConfDesc x l).Pairwise (fun a b => b.2 ≤ a.2) := by
  induction l with
  | nil => simp [insertByConfDesc]
  | cons a t ih =>
    rw [List.pairwise_cons] at h
    unfold insertByConfDesc
    split_ifs with hle
    · rw [List.pairwise_cons]
      refine ⟨?_, List.pairwise_cons.mpr h⟩
      intro b hb
      rcases List.mem_cons.mp hb with rfl | hbt
      · exact hle
      · exact le_trans (h.1 b hbt) hle
    · rw [List.pairwise_cons]
      refine ⟨?_, ih h.2⟩
      intro b hb
      rcases mem_insertByConfDesc.mp hb with rfl | hbt
      · omega
      · exact h.1 b hbt

lemma pairwise_sortByConfDesc (l : List (ParserSpec × Int)) :
    (sortByConfDesc l).Pairwise (fun a b => b.2 ≤ a.2) := by
  induction l with
  | nil => simp [sortByConfDesc]
  | cons a t ih => exact pairwise_insertByConfDesc ih

lemma mem_sortByConfDesc {y : ParserSpec × Int} {l : List (ParserSpec × Int)} :
    y ∈ sortByConfDesc l ↔ y ∈ l := by
  induction l with
  | nil => simp [sortByConfDesc]
  | cons a t ih =>
    unfold sortByConfDesc
    rw [mem_insertByConfDesc, ih, List.mem_cons]

/-- C3: with no preferred tool, `get_parser` returns "no parser" exactly
when the ranked candidate list is empty; and whenever the candidate list
is non-empty but no candidate's confidence reaches its own declared
threshold, it returns the top-ranked candidate — whose confidence is
maximal among all candidates — flagged with the degraded-selection
warning. -/
theorem get_parser_fail_open (ps : List ParserSpec) (file_preview : List Nat)
    (filename : String) :
    (getParser ps file_preview filename none = none ↔
      getCompatibleParsers ps file_preview filename = []) ∧
    (∀ best rest, getCompatibleParsers ps file_preview filename = best :: rest →
      (∀ pc ∈ best :: rest, pc.2 < pc.1.threshold) →
      getParser ps file_preview filename none = some (best.1, true) ∧
        ∀ pc ∈ best :: rest, pc.2 ≤ best.2) := by
  constructor
  · unfold getParser
    cases hc : getCompatibleParsers ps file_preview filename with
    | nil => simp
    | cons best rest =>
      simp only []
      cases hf : (best :: rest).find? (fun pc => pc.1.threshold ≤ pc.2) <;> simp
  · intro best rest hc hbelow
    constructor
    · unfold getParser
      rw [hc]
      dsimp only
      have hf : (best :: rest).find? (fun pc => pc.1.threshold ≤ pc.2) = none := by
        rw [List.find?_eq_none]
        intro pc hpc
        have := hbelow pc hpc
        simp only [decide_eq_true_eq]
        omega
      rw [hf]
    · intro pc hpc
      have hsorted := pairwise_sortByConfDesc
        ((ps.map (fun p => (p, p.canParse file_preview filename))).filter (fun pc => 0 < pc.2))
      rw [show sortByConfDesc ((ps.map (fun p => (p, p.canParse file_preview filename))).filter
            (fun pc => 0 < pc.2)) = getCompatibleParsers ps file_preview filename from rfl,
        hc, List.pairwise_cons] at hsorted
      rcases List.mem_cons.mp hpc with rfl | hpt
      · omega
      · exact hsorted.1 pc hpt

/-- Two synthetic parser specs for the C3 witness: both score positive
confidence but stay below their thresholds. -/
def witnessSpecA : ParserSpec := { toolName := "alpha", canParse := fun _ _ => 40, threshold := 70 }

def witnessSpecB : ParserSpec := { toolName := "beta", canParse := fun _ _ => 60, threshold := 90 }

/-- Witness for C3: on a two-candidate registry where every candidate is
below its own threshold, selection returns the top candidate with the
degraded flag. -/
theorem get_parser_fail_open_witness :
    getParser [witnessSpecA, witnessSpecB] [] "f.json" none = some (witnessSpecB, true) ∧
    ∀ pc ∈ [(witnessSpecB, (60 : Int)), (witnessSpecA, (40 : Int))], pc.2 ≤ 60 := by
  have h := (get_parser_fail_open [witnessSpecA, witnessSpecB] [] "f.json").2
    (witnessSpecB, 60) [(witnessSpecA, 40)] rfl
    (by
      intro pc hpc
      rcases List.mem_cons.mp hpc with rfl | hpc2
      · norm_num [witnessSpecB]
      · rcases List.mem_cons.mp hpc2 with rfl | hpc3
        · norm_num [witnessSpecA]
        · cases hpc3)
  exact ⟨h.1, h.2⟩

/-! ## C1 / C2 — the incremental Prowler v3 parser

Step lemmas for `prowlerV3Step` on the events a well-formed findings
document produces, followed by the fold over records. -/

lemma beq_ff_of_length_ne {a b : String} (h : a.length ≠ b.length) : (a == b) = false := by
  rw [beq_eq_false_iff_ne]
  intro e
  exact h (by rw [e])

lemma fiK_ne_findings (k : String) : (("findings.item." ++ k == "findings") : Bool) = false := by
  apply beq_ff_of_length_ne
  rw [String.length_append,
    show ("findings.item." : String).length = 14 from rfl,
    show ("findings" : String).length = 8 from rfl]
  omega

lemma fiK_ne_fitem (k : String) :
    (("findings.item." ++ k == "findings.item") : Bool) = false := by
  apply beq_ff_of_length_ne
  rw [String.length_append,
    show ("findings.item." : String).length = 14 from rfl,
    show ("findings.item" : String).length = 13 from rfl]
  omega

lemma foldl_lastComp_no_dot (cs : List Char) (acc : List Char) (h : '.' ∉ cs) :
    cs.foldl (fun acc c => if c == '.' then [] else acc ++ [c]) acc = acc ++ cs := by
  induction cs generalizing acc with
  | nil => simp
  | cons c t ih =>
    have hc : (c == '.') = false := by
      rw [beq_eq_false_iff_ne]
      intro e
      exact h (e ▸ List.mem_cons_self c t)
    simp only [List.foldl_cons, hc, Bool.false_eq_true, if_false]
    rw [ih (acc ++ [c]) (fun hm => h (List.mem_cons_of_mem c hm))]
    simp

lemma lastComponent_fiK (k : String) (hk : '.' ∉ k.data) :
    lastComponent ("findings.item." ++ k) = k := by
  unfold lastComponent
  rw [String.data_append, List.foldl_append]
  rw [show ("findings.item.".data.foldl
    (fun acc c => if c == '.' then [] else acc ++ [c]) []) = [] from rfl]
  rw [foldl_lastComp_no_dot k.data [] hk]
  rfl

lemma pv3_step_startMap (st : PV3State) (h : st.inFindingsArray = true) :
    prowlerV3Step st ⟨"findings.item", "start_map", .null⟩ =
      { st with inFindingObject := true, currentFinding := [] } := by
  unfold prowlerV3Step
  simp [h]

lemma pv3_step_endMap (st : PV3State) (h : st.inFindingsArray = true) :
    prowlerV3Step st ⟨"findings.item", "end_map", .null⟩ = prowlerV3Push st := by
  unfold prowlerV3Step
  simp [h]

lemma pv3_step_mapKey (st : PV3State) (k : String) (hA : st.inFindingsArray = true)
    (hO : st.inFindingObject = true) (hC : st.inCompliance = false) :
    prowlerV3Step st ⟨"findings.item", "map_key", .str k⟩ =
      { st with currentFinding := dictInsert "item" (.str k) st.currentFinding } := by
  unfold prowlerV3Step
  simp [hA, hO, hC, lastComponent]

lemma pv3_step_scalar (st : PV3State) (k : String) (v : JValue)
    (hA : st.inFindingsArray = true) (hO : st.inFindingObject = true)
    (hC : st.inCompliance = false) (hk : '.' ∉ k.data) :
    prowlerV3Step st ⟨"findings.item." ++ k, scalarEventName v, v⟩ =
      { st with currentFinding := dictInsert k v st.currentFinding } := by
  unfold prowlerV3Step
  rw [fiK_ne_findings k, fiK_ne_fitem k, lastComponent_fiK k hk]
  cases v <;> simp [scalarEventName, hA, hO, hC]

lemma pv3_push_flags (st : PV3State) :
    (prowlerV3Push st).inFindingsArray = st.inFindingsArray ∧
    (prowlerV3Push st).inFindingObject = false ∧
    (prowlerV3Push st).inCompliance = st.inCompliance ∧
    (prowlerV3Push st).currentFinding = st.currentFinding := by
  unfold prowlerV3Push
  dsimp only
  cases prowlerV3ProcessFinding st.currentFinding with
  | none => exact ⟨rfl, rfl, rfl, rfl⟩
  | some f =>
    dsimp only
    split_ifs <;> exact ⟨rfl, rfl, rfl, rfl⟩

lemma pv3_push_out (st : PV3State) :
    (prowlerV3Push st).yielded ++ (prowlerV3Push st).batch =
      st.yielded ++ st.batch ++ (prowlerV3ProcessFinding st.currentFinding).toList := by
  unfold prowlerV3Push
  dsimp only
  cases prowlerV3ProcessFinding st.currentFinding with
  | none => simp
  | some f =>
    dsimp only
    split_ifs <;> simp

lemma pv3_foldl_fieldEvents (fs : List (String × JValue)) :
    ∀ st : PV3State, st.inFindingsArray = true → st.inFindingObject = true →
    st.inCompliance = false → (∀ kv ∈ fs, '.' ∉ (kv.1 : String).data) →
    List.foldl prowlerV3Step st (fs.flatMap (fun kv => fieldEvents kv.1 kv.2)) =
      { st with currentFinding :=
          (fs.foldl (fun d kv => dictInsert kv.1 kv.2 (dictInsert "item" (.str kv.1) d))
            st.currentFinding) } := by
  induction fs with
  | nil =>
    intro st _ _ _ _
    simp
  | cons kv t ih =>
    intro st hA hO hC hk
    rw [List.flatMap_cons, List.foldl_append]
    have h1 : List.foldl prowlerV3Step st (fieldEvents kv.1 kv.2) =
        { st with currentFinding :=
            dictInsert kv.1 kv.2 (dictInsert "item" (.str kv.1) st.currentFinding) } := by
      unfold fieldEvents
      rw [List.foldl_cons, pv3_step_mapKey st kv.1 hA hO hC, List.foldl_cons]
      rw [pv3_step_scalar
        { st with currentFinding := dictInsert "item" (.str kv.1) st.currentFinding }
        kv.1 kv.2 hA hO hC (hk kv (List.mem_cons_self kv t))]
      rfl
    rw [h1, ih
      { st with currentFinding := dictInsert kv.1 kv.2 (dictInsert "item" (.str kv.1) st.currentFinding) }
      hA hO hC (fun x hx => hk x (List.mem_cons_of_mem kv hx))]
    rfl

lemma pv3_foldl_recordEvents (r : List (String × JValue)) (st : PV3State)
    (hA : st.inFindingsArray = true) (hO : st.inFindingObject = false)
    (hC : st.inCompliance = false) (hk : ∀ kv ∈ r, '.' ∉ (kv.1 : String).data) :
    List.foldl prowlerV3Step st (recordEvents r) =
      prowlerV3Push { st with inFindingObject := true, currentFinding := buildDict r } := by
  unfold recordEvents
  rw [List.foldl_cons, pv3_step_startMap st hA, List.foldl_append]
  rw [pv3_foldl_fieldEvents r { st with inFindingObject := true, currentFinding := [] }
    hA rfl hC hk]
  exact pv3_step_endMap _ hA

lemma pv3_foldl_records (rs : List (List (String × JValue))) :
    ∀ st : PV3State, st.inFindingsArray = true → st.inFindingObject = false →
    st.inCompliance = false →
    (∀ r ∈ rs, ∀ kv ∈ r, '.' ∉ (kv.1 : String).data) →
    (List.foldl prowlerV3Step st (rs.flatMap recordEvents)).inFindingsArray = true ∧
    (List.foldl prowlerV3Step st (rs.flatMap recordEvents)).inFindingObject = false ∧
    (List.foldl prowlerV3Step st (rs.flatMap recordEvents)).inCompliance = false ∧
    (List.foldl prowlerV3Step st (rs.flatMap recordEvents)).yielded ++
      (List.foldl prowlerV3Step st (rs.flatMap recordEvents)).batch =
      st.yielded ++ st.batch ++ rs.filterMap prowlerV3Convert := by
  induction rs with
  | nil =>
    intro st hA hO hC _
    simp [hA, hO, hC]
  | cons r t ih =>
    intro st hA hO hC hk
    rw [List.flatMap_cons, List.foldl_append]
    rw [pv3_foldl_recordEvents r st hA hO hC (hk r (List.mem_cons_self r t))]
    set mid := { st with inFindingObject := true, currentFinding := buildDict r } with hmid
    have hflags := pv3_push_flags mid
    have hout := pv3_push_out mid
    have ihm := ih (prowlerV3Push mid) (by rw [hflags.1]; exact hA) hflags.2.1
      (by rw [hflags.2.2.1]; exact hC) (fun x hx => hk x (List.mem_cons_of_mem r hx))
    refine ⟨ihm.1, ihm.2.1, ihm.2.2.1, ?_⟩
    rw [ihm.2.2.2, hout]
    have : (prowlerV3ProcessFinding mid.currentFinding).toList =
        (prowlerV3Convert r).toList := by
      rw [hmid]
      rfl
    rw [this]
    rw [List.filterMap_cons]
    cases prowlerV3Convert r <;> simp

lemma convert_isSome_of_qualifies (r : List (String × JValue))
    (h : recordQualifies r = true) : (prowlerV3Convert r).isSome := by
  unfold recordQualifies at h
  rw [Bool.and_eq_true] at h
  unfold prowlerV3Convert prowlerV3ProcessFinding
  rw [if_neg ?_]
  · cases hs : dictLookup "severity" (buildDict r) with
    | none => simp
    | some v =>
      rw [hs] at h
      cases v <;> simp_all
  · intro hpass
    rcases hst : dictLookup "status" (buildDict r) with _ | v
    · rw [hst] at hpass; simp at hpass
    · rw [hst] at hpass h
      cases v <;> simp_all

lemma pv3_step_endArray (st : PV3State) :
    prowlerV3Step st ⟨"findings", "end_array", .null⟩ =
      { st with inFindingsArray := false } := by
  unfold prowlerV3Step
  simp

lemma pv3_step_docClose (st : PV3State) (h : st.inFindingsArray = false) :
    prowlerV3Step st ⟨"", "end_map", .null⟩ = st := by
  unfold prowlerV3Step
  simp [h]

/-- C1 (amended): for a structured findings document of records with
dot-free, scalar fields, each qualifying in the code's sense (not `PASS`
and with a string severity when one is present), `parse_stream` completes
without error and yields exactly one finding per record, in array order —
each record `r` contributing `prowlerV3Convert r` — across every
batch-flush boundary. -/
theorem prowler_v3_yields_all_qualifying_records (rs : List (List (String × JValue)))
    (hkeys : ∀ r ∈ rs, ∀ kv ∈ r, '.' ∉ (kv.1 : String).data)
    (hq : ∀ r ∈ rs, recordQualifies r = true) :
    prowlerV3ParseStream (findingsDocEvents rs) false =
      .ok (rs.filterMap prowlerV3Convert) ∧
    (rs.filterMap prowlerV3Convert).length = rs.length := by
  constructor
  · unfold prowlerV3ParseStream findingsDocEvents
    rw [List.foldl_append, List.foldl_append]
    rw [show List.foldl prowlerV3Step prowlerV3InitState docOpenEvents =
      { prowlerV3InitState with inFindingsArray := true } from rfl]
    have hrec := pv3_foldl_records rs
      { prowlerV3InitState with inFindingsArray := true } rfl rfl rfl hkeys
    set st1 := List.foldl prowlerV3Step { prowlerV3InitState with inFindingsArray := true }
      (rs.flatMap recordEvents) with hst1
    rw [List.foldl_cons, List.foldl_cons, List.foldl_nil]
    rw [pv3_step_endArray st1]
    rw [pv3_step_docClose { st1 with inFindingsArray := false } rfl]
    have : ({ st1 with inFindingsArray := false } : PV3State).yielded ++
        ({ st1 with inFindingsArray := false } : PV3State).batch =
        rs.filterMap prowlerV3Convert := by
      show st1.yielded ++ st1.batch = rs.filterMap prowlerV3Convert
      rw [hrec.2.2.2]
      simp [prowlerV3InitState]
    simp only [Bool.false_eq_true, if_false, this]
  · exact filterMap_length_of_isSome _ rs
      (fun r hr => convert_isSome_of_qualifies r (hq r hr))

/-- The record that refutes C1 as frozen: it is not marked `PASS` — so it
is qualifying in the claim's sense — but its `severity` field is the
number 3, on which `_process_finding`'s `.lower()` raises, so the record
is skipped. -/
def c1BadRecord : List (String × JValue) := [("status", .str "FAIL"), ("severity", .num 3)]

/-- Counterexample to C1 as stated: a findings array of one record not
marked `PASS` for which `parse_stream` yields zero findings, not one. -/
theorem prowler_v3_drops_unconvertible_record :
    dictLookup "status" c1BadRecord = some (.str "FAIL") ∧
    (outcomeFindings (prowlerV3ParseStream (findingsDocEvents [c1BadRecord]) false)).length
      = 0 := by
  constructor
  · rfl
  · rfl

/-- Witness for C1 at two concrete qualifying records. -/
theorem prowler_v3_yields_all_qualifying_records_witness :
    prowlerV3ParseStream (findingsDocEvents
        [[("status", .str "FAIL"), ("severity", .str "high"), ("check_title", .str "T1")],
         [("status", .str "FAIL"), ("severity", .str "critical"), ("check_id", .str "c2")]])
      false =
      .ok ([[("status", .str "FAIL"), ("severity", .str "high"), ("check_title", .str "T1")],
            [("status", .str "FAIL"), ("severity", .str "critical"), ("check_id", .str "c2")]]
        |>.filterMap prowlerV3Convert) ∧
    ([[("status", .str "FAIL"), ("severity", .str "high"), ("check_title", .str "T1")],
      [("status", .str "FAIL"), ("severity", .str "critical"), ("check_id", .str "c2")]]
        |>.filterMap prowlerV3Convert).length = 2 := by
  exact prowler_v3_yields_all_qualifying_records _ (by decide) (by decide)

lemma complianceStep_preserves_out (st : PV3State) (e : JEvent) :
    (prowlerV3ComplianceStep st e).yielded = st.yielded ∧
    (prowlerV3ComplianceStep st e).batch = st.batch := by
  unfold prowlerV3ComplianceStep
  split_ifs <;> exact ⟨rfl, rfl⟩

lemma pv3_step_preserves_out (st : PV3State) (e : JEvent)
    (h : ¬(e.pfx = "findings.item" ∧ e.ev = "end_map")) :
    (prowlerV3Step st e).yielded = st.yielded ∧
    (prowlerV3Step st e).batch = st.batch := by
  unfold prowlerV3Step
  have hnot : ((e.pfx == "findings.item" && e.ev == "end_map") : Bool) = false := by
    rw [Bool.and_eq_false_iff]
    by_cases hp : e.pfx = "findings.item"
    · right
      rw [beq_eq_false_iff_ne]
      intro hv
      exact h ⟨hp, hv⟩
    · left
      rw [beq_eq_false_iff_ne]
      exact hp
  set st1 := (if e.pfx == "findings" && e.ev == "start_array" then
      { st with inFindingsArray := true }
    else if e.pfx == "findings" && e.ev == "end_array" then
      { st with inFindingsArray := false }
    else st) with hst1
  have hst1out : st1.yielded = st.yielded ∧ st1.batch = st.batch := by
    rw [hst1]
    split_ifs <;> exact ⟨rfl, rfl⟩
  by_cases hin : st1.inFindingsArray = true
  · rw [if_pos hin]
    by_cases hsm : (e.pfx == "findings.item" && e.ev == "start_map") = true
    · rw [if_pos hsm]
      exact hst1out
    · rw [if_neg hsm]
      rw [if_neg (by
        intro hc
        rw [Bool.and_eq_true] at hc
        rw [Bool.and_eq_false_iff] at hnot
        rcases hnot with h1 | h2
        · rw [hc.1] at h1; cases h1
        · rw [hc.2] at h2; cases h2)]
      by_cases hcol : (st1.inFindingObject &&
          !(e.ev == "start_map" || e.ev == "end_map" ||
            e.ev == "start_array" || e.ev == "end_array")) = true
      · rw [if_pos hcol]
        by_cases hcmp : (lastComponent e.pfx == "compliance" && e.ev == "start_map") = true
        · rw [if_pos hcmp]
          exact hst1out
        · rw [if_neg hcmp]
          by_cases hic : st1.inCompliance = true
          · rw [if_pos hic]
            have := complianceStep_preserves_out st1 e
            exact ⟨this.1.trans hst1out.1, this.2.trans hst1out.2⟩
          · rw [if_neg hic]
            exact hst1out
      · rw [if_neg hcol]
        exact hst1out
  · rw [if_neg hin]
    exact hst1out

lemma pv3_foldl_preserves_out (evs : List JEvent) :
    ∀ st : PV3State, (∀ e ∈ evs, ¬(e.pfx = "findings.item" ∧ e.ev = "end_map")) →
    (List.foldl prowlerV3Step st evs).yielded = st.yielded ∧
    (List.foldl prowlerV3Step st evs).batch = st.batch := by
  induction evs with
  | nil => intro st _; exact ⟨rfl, rfl⟩
  | cons e t ih =>
    intro st h
    rw [List.foldl_cons]
    have h1 := pv3_step_preserves_out st e (h e (List.mem_cons_self e t))
    have h2 := ih (prowlerV3Step st e) (fun x hx => h x (List.mem_cons_of_mem e hx))
    exact ⟨h2.1.trans h1.1, h2.2.trans h1.2⟩

/-- C2 (amended): an input that is valid through K complete records —
each with dot-free scalar fields, none `PASS`, severity a string when
present — and is then truncated or corrupted (its event iterator produces
some further events none of which closes a record object, then raises)
yields exactly the K findings, every buffered one flushed and nothing
fabricated from the incomplete tail, and then signals `ParseError`. -/
theorem prowler_v3_partial_input_flushes_exactly_k (rs : List (List (String × JValue)))
    (hkeys : ∀ r ∈ rs, ∀ kv ∈ r, '.' ∉ (kv.1 : String).data)
    (hq : ∀ r ∈ rs, recordQualifies r = true)
    (tail : List JEvent)
    (htail : ∀ e ∈ tail, ¬(e.pfx = "findings.item" ∧ e.ev = "end_map")) :
    prowlerV3ParseStream (docOpenEvents ++ rs.flatMap recordEvents ++ tail) true =
      .parseError (rs.filterMap prowlerV3Convert) ∧
    (rs.filterMap prowlerV3Convert).length = rs.length := by
  constructor
  · unfold prowlerV3ParseStream
    rw [List.foldl_append, List.foldl_append]
    rw [show List.foldl prowlerV3Step prowlerV3InitState docOpenEvents =
      { prowlerV3InitState with inFindingsArray := true } from rfl]
    have hrec := pv3_foldl_records rs
      { prowlerV3InitState with inFindingsArray := true } rfl rfl rfl hkeys
    set st1 := List.foldl prowlerV3Step { prowlerV3InitState with inFindingsArray := true }
      (rs.flatMap recordEvents) with hst1
    have htl := pv3_foldl_preserves_out tail st1 htail
    rw [if_pos rfl, htl.1, htl.2, hrec.2.2.2]
    simp [prowlerV3InitState]
  · exact filterMap_length_of_isSome _ rs
      (fun r hr => convert_isSome_of_qualifies r (hq r hr))

/-- Counterexample to C2 as stated: one complete record that is not
marked `PASS` (so K = 1 in the claim's sense), followed by truncation —
the parser yields 0 findings before the `ParseError`, not 1, because the
record's numeric severity makes `_process_finding` skip it. -/
theorem prowler_v3_partial_input_k_counterexample :
    dictLookup "status" c1BadRecord = some (.str "FAIL") ∧
    outcomeIsOk (prowlerV3ParseStream
      (docOpenEvents ++ [c1BadRecord].flatMap recordEvents) true) = false ∧
    (outcomeFindings (prowlerV3ParseStream
      (docOpenEvents ++ [c1BadRecord].flatMap recordEvents) true)).length = 0 := by
  refine ⟨rfl, rfl, rfl⟩

/-- Witness for C2: one qualifying record, then a truncated second record
(its object is opened and one field arrives, but it never closes). -/
theorem prowler_v3_partial_input_flushes_exactly_k_witness :
    prowlerV3ParseStream (docOpenEvents ++
        [[("status", .str "FAIL"), ("severity", .str "low")]].flatMap recordEvents ++
        [⟨"findings.item", "start_map", .null⟩,
         ⟨"findings.item", "map_key", .str "status"⟩,
         ⟨"findings.item.status", "string", .str "FAIL"⟩]) true =
      .parseError ([[("status", .str "FAIL"), ("severity", .str "low")]].filterMap
        prowlerV3Convert) ∧
    ([[("status", .str "FAIL"), ("severity", .str "low")]].filterMap
      prowlerV3Convert).length = 1 := by
  exact prowler_v3_partial_input_flushes_exactly_k _ (by decide) (by decide) _ (by decide)

/-! ## C10 — sanitized code snippets in Bandit findings -/

lemma lookup_filter_cons_ne {k key : String} (hk : (k == key) = false) (val : JValue)
    (l : List (String × JValue)) (p : String × JValue → Bool) :
    List.lookup k (List.filter p ((key, val) :: l)) = List.lookup k (List.filter p l) := by
  rw [List.filter_cons]
  split_ifs
  · simp [List.lookup, hk]
  · rfl

/-- In the metadata dict `_process_result` builds, `code_snippet` maps to
exactly the (non-`None`) snippet value passed in. -/
lemma lookup_banditToolMeta_code_snippet (r : List (String × JValue)) (v : JValue)
    (hv : jIsNull v = false) :
    dictLookup "code_snippet" (banditToolMeta r v) = some v := by
  unfold dictLookup banditToolMeta
  dsimp only
  simp only [List.cons_append, List.nil_append]
  rw [lookup_filter_cons_ne (by decide), lookup_filter_cons_ne (by decide),
    lookup_filter_cons_ne (by decide), lookup_filter_cons_ne (by decide),
    lookup_filter_cons_ne (by decide), lookup_filter_cons_ne (by decide)]
  rw [List.filter_cons]
  rw [if_pos (by rw [hv]; rfl)]
  simp [List.lookup]

/-- C10: for a Bandit result record whose `code` field is a non-empty
string, whenever `_process_result` yields a finding, the `code_snippet`
stored in its `tool_metadata` is exactly `_sanitize_code` of the `code`
field — each `SENSITIVE_PATTERNS` substitution applied in order,
case-insensitively, so text matching those patterns is replaced by its
`[REDACTED]` marker. -/
theorem bandit_code_snippet_sanitized (r : List (String × JValue)) (s : String)
    (hcode : dictLookup "code" r = some (.str s)) (hs : (s == "") = false)
    (f : Finding) (hf : banditProcessResult (.obj r) = some f) :
    dictLookup "code_snippet" f.tool_metadata = some (.str (sanitizeCode s)) := by
  unfold banditProcessResult at hf
  dsimp only at hf
  have hcv : jGetD r "code" (JValue.str "") = JValue.str s := by
    unfold jGetD
    rw [hcode]
    rfl
  rw [hcv] at hf
  rw [show (jTruthy (JValue.str s)) = !(s == "") from rfl, hs] at hf
  simp only [Bool.not_false, if_true] at hf
  rcases hsev : dictLookup "issue_severity" r with _ | v
  · rw [hsev] at hf
    dsimp only at hf
    have hfe := Option.some.inj hf
    rw [← hfe]
    repeat' split
    all_goals exact lookup_banditToolMeta_code_snippet r _ rfl
  · rw [hsev] at hf
    cases v with
    | null => simp at hf
    | bool b => simp at hf
    | num q => simp at hf
    | arr xs => simp at hf
    | obj kvs => simp at hf
    | str sv =>
      dsimp only at hf
      have hfe := Option.some.inj hf
      rw [← hfe]
      repeat' split
      all_goals exact lookup_banditToolMeta_code_snippet r _ rfl

/-- The concrete record for the C10 witness: its code field holds a
hardcoded password assignment. -/
def c10Record : List (String × JValue) :=
  [("test_id", .str "B105"), ("issue_severity", .str "HIGH"),
   ("code", .str "password = \"hunter2\"")]

/-- Witness for C10: on the concrete record, the yielded finding stores
the redacted snippet. -/
theorem bandit_code_snippet_sanitized_witness :
    ∃ f, banditProcessResult (.obj c10Record) = some f ∧
      dictLookup "code_snippet" f.tool_metadata =
        some (.str (sanitizeCode "password = \"hunter2\"")) := by
  refine ⟨_, rfl, bandit_code_snippet_sanitized c10Record "password = \"hunter2\""
    rfl rfl _ rfl⟩

/-! ## C9 — the end-to-end Bandit scenario -/

/-- The concrete instantiation of the claim's input
`{"results":[{"issue_severity":"HIGH",...},{"issue_severity":"LOW",...}]}`,
with the elided fields filled in with typical Bandit record fields. -/
def c9Content : String :=
  "\x7b\"results\": [" ++
  "\x7b\"test_id\": \"B105\", \"test_name\": \"hardcoded_password_string\", " ++
  "\"issue_severity\": \"HIGH\", \"issue_confidence\": \"MEDIUM\", " ++
  "\"issue_text\": \"Possible hardcoded password\", \"filename\": \"app.py\", " ++
  "\"line_number\": 12\x7d, " ++
  "\x7b\"test_id\": \"B301\", \"test_name\": \"blacklist\", " ++
  "\"issue_severity\": \"LOW\", \"issue_confidence\": \"HIGH\", " ++
  "\"issue_text\": \"Pickle usage\", \"filename\": \"util.py\", " ++
  "\"line_number\": 3\x7d]\x7d"

/-- The byte content of the uploaded file (the content is ASCII, so the
UTF-8 bytes are the code points). -/
def c9Bytes : List Nat := c9Content.data.map Char.toNat

set_option maxRecDepth 100000 in
set_option maxHeartbeats 2000000 in
/-- C9: on the bandit-report scenario input named `bandit_report.json`,
format detection reports `json` at confidence 0.95 ≥ 0.9, parser selection
picks the bandit parser (not on the degraded path) with a `can_parse`
confidence of 0.9 ≥ 0.8, and parsing yields exactly two findings with
severities HIGH and LOW and `tool_source` `"bandit"`.  (Confidences in
hundredths, as everywhere in this file.) -/
theorem bandit_end_to_end_scenario :
    (detectFormat c9Bytes "bandit_report.json").format_type = "json" ∧
    (detectFormat c9Bytes "bandit_report.json").confidence ≥ 90 ∧
    (getParser registeredParsers c9Bytes "bandit_report.json" none).map
      (fun pw => (pw.1.toolName, pw.2)) = some ("bandit", false) ∧
    banditCanParse c9Bytes "bandit_report.json" ≥ 80 ∧
    outcomeIsOk (banditParseStream c9Bytes) = true ∧
    (outcomeFindings (banditParseStream c9Bytes)).map (fun f => f.severity) =
      [.HIGH, .LOW] ∧
    (outcomeFindings (banditParseStream c9Bytes)).all
      (fun f => f.tool_source == "bandit") = true ∧
    (outcomeFindings (banditParseStream c9Bytes)).length = 2 := by
  refine ⟨?_, ?_, ?_, ?_, ?_, ?_, ?_, ?_⟩ <;> decide

end Scanalyzer
